import Mathlib

set_option maxHeartbeats 1000000

/-!
Verification of the bounded-concurrency admission gate in grlimit/grlimit.go.

The Go code is embedded as a small-step transition system over interleavings
of the threads that interact with a Gate:

  - submitter threads: one per call to Gate.Submit, stepping through the nil
    check, the closed check, the select that acquires a semaphore token or
    observes context cancellation, the closed re-check, and the go statement
    that spawns a worker;
  - worker goroutines: one per admitted job, stepping through the context
    check, the invocation of Job.Run (whose result is a fixed outcome script:
    nil error, non-nil error, or a panic that the deferred recover absorbs),
    the non-blocking error send, and the deferred semaphore release;
  - closer threads: one per call to Gate.CloseAndWait, stepping through the
    atomic swap on the closed flag, the loop acquiring all capacity tokens,
    and the close of the error channel.

The buffered channel g.sem is modelled by the counter sem (number of tokens
currently in the channel) bounded by cap; a send is enabled when sem < cap and
a receive when 0 < sem, matching Go channel semantics. The error channel is a
bounded list errs plus a closed flag; sending or closing a closed channel
panics in Go, which the model records in the crashed flag. The model has no
consumer of the error channel, so errs only grows until it is closed.
-/

namespace Grlimit

/-- Result script of one invocation of Job.Run: a nil error, a non-nil error
identified by a numeric code, or a runtime panic. -/
inductive Outcome : Type
  | ok : Outcome
  | fail : Nat → Outcome
  | panics : Outcome
deriving DecidableEq

/-- Value returned by Gate.Submit: nil, ErrNilJobSubmitted, ErrShutdown, or
the error of the canceled context. -/
inductive SResult : Type
  | ok : SResult
  | errNilJob : SResult
  | errShutdown : SResult
  | errCtx : SResult
deriving DecidableEq

/-- Program counter of a thread executing Gate.Submit. -/
inductive SPC : Type
  | checkNil : SPC
  | checkClosed : SPC
  | selecting : SPC
  | recheck : SPC
  | done : SResult → SPC
deriving DecidableEq

/-- Program counter of a worker goroutine spawned by Submit. -/
inductive WPC : Type
  | checkCtx : WPC
  | running : WPC
  | sending : Nat → WPC
  | release : WPC
  | done : WPC
deriving DecidableEq

/-- A thread executing Gate.Submit: the submitted job (none models a nil Job
value), the canceled state of its context, and its program counter. -/
structure SubT where
  jb : Option Outcome
  ctx : Bool
  pc : SPC
deriving DecidableEq

/-- A worker goroutine: the outcome script of its job, the canceled state of
its context, whether its error was enqueued to the error channel, and its
program counter. -/
structure WkT where
  outcome : Outcome
  ctx : Bool
  delivered : Bool
  pc : WPC
deriving DecidableEq

/-- Program counter of a thread executing Gate.CloseAndWait: before the swap,
in the acquisition loop having acquired k tokens, finished as the winner that
closed the error channel, or finished immediately because the gate was
already closed. -/
inductive CPC : Type
  | start : CPC
  | acq : Nat → CPC
  | doneWon : CPC
  | doneLost : CPC
deriving DecidableEq

/-- Global state: the Gate fields of grlimit.go together with the in-flight
threads. sem is the number of tokens in the semaphore channel, errs the
content of the error channel, crashed records a Go runtime panic caused by
sending on or closing an already closed channel. -/
structure GSt where
  cap : Nat
  errCap : Nat
  closed : Bool
  sem : Nat
  errs : List Nat
  errsClosed : Bool
  crashed : Bool
  subs : List SubT
  wks : List WkT
  cls : List CPC
deriving DecidableEq

/-- The const defaultErrBuffer = 10 of grlimit.go. -/
def defaultErrBuffer : Nat := 10

/-- NewGate: capacities at most zero are coerced to 1; the semaphore channel
starts empty and the error channel open with buffer defaultErrBuffer. -/
def NewGate (c : Int) : GSt :=
  { cap := if c ≤ 0 then 1 else c.toNat
    errCap := defaultErrBuffer
    closed := false
    sem := 0
    errs := []
    errsClosed := false
    crashed := false
    subs := []
    wks := []
    cls := [] }

/-- InUse returns len(g.sem). -/
def InUse (g : GSt) : Nat := g.sem

/-- Capacity returns cap(g.sem). -/
def Capacity (g : GSt) : Nat := g.cap

/-- Available returns Capacity() - InUse(). -/
def Available (g : GSt) : Nat := Capacity g - InUse g

/-- Index access into a thread list. -/
def nth {α : Type} : List α → Nat → Option α
  | [], _ => none
  | a :: _, 0 => some a
  | _ :: l, n + 1 => nth l n

/-- Sum of a numeric measure over a thread list. -/
def sumBy {α : Type} (f : α → Nat) : List α → Nat
  | [] => 0
  | a :: l => f a + sumBy f l

/-- Number of workers that have not yet finished, that is, of concurrently
running jobs. -/
def wkTok (w : WkT) : Nat :=
  match w.pc with
  | WPC.done => 0
  | _ => 1

/-- Semaphore tokens held by a submitter: exactly one while it is between the
acquisition and the re-check decision. -/
def subTok (s : SubT) : Nat :=
  match s.pc with
  | SPC.recheck => 1
  | _ => 0

/-- Semaphore tokens held by a closer. -/
def clTok (cap : Nat) : CPC → Nat
  | CPC.start => 0
  | CPC.acq k => k
  | CPC.doneWon => cap
  | CPC.doneLost => 0

/-- Whether a closer won the atomic swap on the closed flag. -/
def winTok : CPC → Nat
  | CPC.acq _ => 1
  | CPC.doneWon => 1
  | _ => 0

/-- Whether a closer has completed the shutdown, error channel included. -/
def wonTok : CPC → Nat
  | CPC.doneWon => 1
  | _ => 0

/-- Number of concurrently running jobs. -/
def runningJobs (g : GSt) : Nat := sumBy wkTok g.wks

/-- One interleaving step of the system: a thread arrives or advances by one
atomic action of grlimit.go, or a context fires. -/
inductive Step : GSt → GSt → Prop
  | newSubmit (g : GSt) (jb : Option Outcome) (c : Bool) :
      Step g { g with subs := g.subs ++ [⟨jb, c, SPC.checkNil⟩] }
  | newCloser (g : GSt) :
      Step g { g with cls := g.cls ++ [CPC.start] }
  | ctxFireSub (g : GSt) (i : Nat) (s : SubT)
      (h : nth g.subs i = some s) :
      Step g { g with subs := g.subs.set i { s with ctx := true } }
  | ctxFireWk (g : GSt) (i : Nat) (w : WkT)
      (h : nth g.wks i = some w) :
      Step g { g with wks := g.wks.set i { w with ctx := true } }
  | subNilRej (g : GSt) (i : Nat) (s : SubT)
      (h : nth g.subs i = some s) (hpc : s.pc = SPC.checkNil)
      (hj : s.jb = none) :
      Step g { g with subs := g.subs.set i { s with pc := SPC.done SResult.errNilJob } }
  | subNilOk (g : GSt) (i : Nat) (s : SubT) (o : Outcome)
      (h : nth g.subs i = some s) (hpc : s.pc = SPC.checkNil)
      (hj : s.jb = some o) :
      Step g { g with subs := g.subs.set i { s with pc := SPC.checkClosed } }
  | subClosedRej (g : GSt) (i : Nat) (s : SubT)
      (h : nth g.subs i = some s) (hpc : s.pc = SPC.checkClosed)
      (hc : g.closed = true) :
      Step g { g with subs := g.subs.set i { s with pc := SPC.done SResult.errShutdown } }
  | subClosedOk (g : GSt) (i : Nat) (s : SubT)
      (h : nth g.subs i = some s) (hpc : s.pc = SPC.checkClosed)
      (hc : g.closed = false) :
      Step g { g with subs := g.subs.set i { s with pc := SPC.selecting } }
  | subAcquire (g : GSt) (i : Nat) (s : SubT)
      (h : nth g.subs i = some s) (hpc : s.pc = SPC.selecting)
      (hs : g.sem < g.cap) :
      Step g { g with sem := g.sem + 1, subs := g.subs.set i { s with pc := SPC.recheck } }
  | subCtxExit (g : GSt) (i : Nat) (s : SubT)
      (h : nth g.subs i = some s) (hpc : s.pc = SPC.selecting)
      (hctx : s.ctx = true) :
      Step g { g with subs := g.subs.set i { s with pc := SPC.done SResult.errCtx } }
  | subRecheckRej (g : GSt) (i : Nat) (s : SubT)
      (h : nth g.subs i = some s) (hpc : s.pc = SPC.recheck)
      (hc : g.closed = true) (hs : 0 < g.sem) :
      Step g { g with sem := g.sem - 1,
                      subs := g.subs.set i { s with pc := SPC.done SResult.errShutdown } }
  | subSpawn (g : GSt) (i : Nat) (s : SubT) (o : Outcome)
      (h : nth g.subs i = some s) (hpc : s.pc = SPC.recheck)
      (hc : g.closed = false) (hj : s.jb = some o) :
      Step g { g with subs := g.subs.set i { s with pc := SPC.done SResult.ok },
                      wks := g.wks ++ [⟨o, s.ctx, false, WPC.checkCtx⟩] }
  | wkCtxSkip (g : GSt) (i : Nat) (w : WkT)
      (h : nth g.wks i = some w) (hpc : w.pc = WPC.checkCtx)
      (hctx : w.ctx = true) :
      Step g { g with wks := g.wks.set i { w with pc := WPC.release } }
  | wkCtxGo (g : GSt) (i : Nat) (w : WkT)
      (h : nth g.wks i = some w) (hpc : w.pc = WPC.checkCtx)
      (hctx : w.ctx = false) :
      Step g { g with wks := g.wks.set i { w with pc := WPC.running } }
  | wkRunOk (g : GSt) (i : Nat) (w : WkT)
      (h : nth g.wks i = some w) (hpc : w.pc = WPC.running)
      (ho : w.outcome = Outcome.ok) :
      Step g { g with wks := g.wks.set i { w with pc := WPC.release } }
  | wkRunPanic (g : GSt) (i : Nat) (w : WkT)
      (h : nth g.wks i = some w) (hpc : w.pc = WPC.running)
      (ho : w.outcome = Outcome.panics) :
      Step g { g with wks := g.wks.set i { w with pc := WPC.release } }
  | wkRunFail (g : GSt) (i : Nat) (w : WkT) (e : Nat)
      (h : nth g.wks i = some w) (hpc : w.pc = WPC.running)
      (ho : w.outcome = Outcome.fail e) :
      Step g { g with wks := g.wks.set i { w with pc := WPC.sending e } }
  | wkSendOk (g : GSt) (i : Nat) (w : WkT) (e : Nat)
      (h : nth g.wks i = some w) (hpc : w.pc = WPC.sending e)
      (hec : g.errsClosed = false) (hlen : g.errs.length < g.errCap) :
      Step g { g with errs := g.errs ++ [e],
                      wks := g.wks.set i { w with delivered := true, pc := WPC.release } }
  | wkSendDrop (g : GSt) (i : Nat) (w : WkT) (e : Nat)
      (h : nth g.wks i = some w) (hpc : w.pc = WPC.sending e)
      (hec : g.errsClosed = false) (hlen : g.errCap ≤ g.errs.length) :
      Step g { g with wks := g.wks.set i { w with pc := WPC.release } }
  | wkSendCrash (g : GSt) (i : Nat) (w : WkT) (e : Nat)
      (h : nth g.wks i = some w) (hpc : w.pc = WPC.sending e)
      (hec : g.errsClosed = true) :
      Step g { g with crashed := true,
                      wks := g.wks.set i { w with pc := WPC.release } }
  | wkRelease (g : GSt) (i : Nat) (w : WkT)
      (h : nth g.wks i = some w) (hpc : w.pc = WPC.release)
      (hs : 0 < g.sem) :
      Step g { g with sem := g.sem - 1, wks := g.wks.set i { w with pc := WPC.done } }
  | clLose (g : GSt) (i : Nat)
      (h : nth g.cls i = some CPC.start) (hc : g.closed = true) :
      Step g { g with cls := g.cls.set i CPC.doneLost }
  | clWin (g : GSt) (i : Nat)
      (h : nth g.cls i = some CPC.start) (hc : g.closed = false) :
      Step g { g with closed := true, cls := g.cls.set i (CPC.acq 0) }
  | clAcquire (g : GSt) (i : Nat) (k : Nat)
      (h : nth g.cls i = some (CPC.acq k)) (hk : k < g.cap)
      (hs : g.sem < g.cap) :
      Step g { g with sem := g.sem + 1, cls := g.cls.set i (CPC.acq (k + 1)) }
  | clClose (g : GSt) (i : Nat)
      (h : nth g.cls i = some (CPC.acq g.cap)) (hec : g.errsClosed = false) :
      Step g { g with errsClosed := true, cls := g.cls.set i CPC.doneWon }
  | clCloseCrash (g : GSt) (i : Nat)
      (h : nth g.cls i = some (CPC.acq g.cap)) (hec : g.errsClosed = true) :
      Step g { g with crashed := true, cls := g.cls.set i CPC.doneWon }

/-- Reachable states: some NewGate followed by any interleaving of steps. -/
inductive Reach : GSt → Prop
  | init (c : Int) : Reach (NewGate c)
  | step {g g2 : GSt} : Reach g → Step g g2 → Reach g2

/-- Finite step sequences, used to exhibit continuations of a run. -/
inductive Steps : GSt → GSt → Prop
  | refl (g : GSt) : Steps g g
  | tail {g g1 g2 : GSt} : Steps g g1 → Step g1 g2 → Steps g g2

theorem reach_of_steps {g g2 : GSt} (hg : Reach g) (hs : Steps g g2) : Reach g2 := by
  induction hs with
  | refl => exact hg
  | tail _ hstep ih => exact Reach.step ih hstep

theorem steps_single {g g2 : GSt} (h : Step g g2) : Steps g g2 :=
  Steps.tail (Steps.refl g) h

theorem steps_trans {g g1 g2 : GSt} (h1 : Steps g g1) (h2 : Steps g1 g2) : Steps g g2 := by
  induction h2 with
  | refl => exact h1
  | tail _ hstep ih => exact Steps.tail ih hstep

theorem nth_mem {α : Type} {l : List α} {i : Nat} {a : α} (h : nth l i = some a) : a ∈ l := by
  induction l generalizing i with
  | nil => simp [nth] at h
  | cons x xs ih =>
    cases i with
    | zero => simp [nth] at h; simp [h]
    | succ j => exact List.mem_cons_of_mem x (ih h)

theorem nth_lt_length {α : Type} {l : List α} {i : Nat} {a : α} (h : nth l i = some a) :
    i < l.length := by
  induction l generalizing i with
  | nil => simp [nth] at h
  | cons x xs ih =>
    cases i with
    | zero => simp
    | succ j => exact Nat.succ_lt_succ (ih h)

theorem nth_set_self {α : Type} {l : List α} {i : Nat} {a : α} (h : nth l i = some a) (b : α) :
    nth (l.set i b) i = some b := by
  induction l generalizing i with
  | nil => simp [nth] at h
  | cons x xs ih =>
    cases i with
    | zero => simp [List.set, nth]
    | succ j => simpa [List.set, nth] using ih h

theorem nth_set_ne {α : Type} (l : List α) (i j : Nat) (b : α) (hij : i ≠ j) :
    nth (l.set i b) j = nth l j := by
  induction l generalizing i j with
  | nil => simp [List.set]
  | cons x xs ih =>
    cases i with
    | zero =>
      cases j with
      | zero => exact absurd rfl hij
      | succ j2 => simp [List.set, nth]
    | succ i2 =>
      cases j with
      | zero => simp [List.set, nth]
      | succ j2 =>
        have : i2 ≠ j2 := fun hh => hij (by simp [hh])
        simpa [List.set, nth] using ih i2 j2 this

theorem nth_append_left {α : Type} {l : List α} (l2 : List α) {i : Nat} {a : α}
    (h : nth l i = some a) : nth (l ++ l2) i = some a := by
  induction l generalizing i with
  | nil => simp [nth] at h
  | cons x xs ih =>
    cases i with
    | zero => simpa [nth] using h
    | succ j => simpa [nth] using ih h

theorem mem_of_set {α : Type} {l : List α} {i : Nat} {b w : α} (h : w ∈ l.set i b) :
    w = b ∨ w ∈ l := by
  induction l generalizing i with
  | nil => simp [List.set] at h
  | cons x xs ih =>
    cases i with
    | zero =>
      rcases List.mem_cons.mp h with h1 | h1
      · exact Or.inl h1
      · exact Or.inr (List.mem_cons_of_mem x h1)
    | succ j =>
      rcases List.mem_cons.mp h with h1 | h1
      · exact Or.inr (by simp [h1])
      · rcases ih h1 with h2 | h2
        · exact Or.inl h2
        · exact Or.inr (List.mem_cons_of_mem x h2)

theorem sumBy_append {α : Type} (f : α → Nat) (l1 l2 : List α) :
    sumBy f (l1 ++ l2) = sumBy f l1 + sumBy f l2 := by
  induction l1 with
  | nil => simp [sumBy]
  | cons x xs ih => simp [sumBy, ih]; omega

theorem sumBy_set {α : Type} (f : α → Nat) {l : List α} {i : Nat} {a : α}
    (h : nth l i = some a) (b : α) :
    sumBy f (l.set i b) + f a = sumBy f l + f b := by
  induction l generalizing i with
  | nil => simp [nth] at h
  | cons x xs ih =>
    cases i with
    | zero =>
      simp [nth] at h
      simp [List.set, sumBy, h]
      omega
    | succ j =>
      have := ih (i := j) h
      simp [List.set, sumBy]
      omega

theorem sumBy_le_of_mem {α : Type} (f : α → Nat) {l : List α} {a : α} (h : a ∈ l) :
    f a ≤ sumBy f l := by
  induction l with
  | nil => simp at h
  | cons x xs ih =>
    rcases List.mem_cons.mp h with h1 | h1
    · subst h1; simp [sumBy]
    · have := ih h1
      simp [sumBy]; omega

theorem sumBy_eq_zero_of_mem {α : Type} (f : α → Nat) {l : List α} (h : sumBy f l = 0)
    {a : α} (ha : a ∈ l) : f a = 0 := by
  have := sumBy_le_of_mem f ha
  omega

theorem exists_pos_of_sumBy_pos {α : Type} (f : α → Nat) {l : List α}
    (h : 0 < sumBy f l) : ∃ a, a ∈ l ∧ 0 < f a := by
  induction l with
  | nil => simp [sumBy] at h
  | cons x xs ih =>
    by_cases hx : 0 < f x
    · exact ⟨x, by simp, hx⟩
    · have hx0 : f x = 0 := by omega
      have : 0 < sumBy f xs := by simp [sumBy, hx0] at h; omega
      rcases ih this with ⟨a, ha, hpos⟩
      exact ⟨a, List.mem_cons_of_mem x ha, hpos⟩

theorem sumBy_two_nth {α : Type} (f : α → Nat) {l : List α} {i j : Nat} {a b : α}
    (hij : i ≠ j) (ha : nth l i = some a) (hb : nth l j = some b) :
    f a + f b ≤ sumBy f l := by
  induction l generalizing i j with
  | nil => simp [nth] at ha
  | cons x xs ih =>
    cases i with
    | zero =>
      cases j with
      | zero => exact absurd rfl hij
      | succ j2 =>
        simp [nth] at ha hb
        have := sumBy_le_of_mem f (nth_mem hb)
        simp [sumBy, ha]
        omega
    | succ i2 =>
      cases j with
      | zero =>
        simp [nth] at ha hb
        have := sumBy_le_of_mem f (nth_mem ha)
        simp [sumBy, hb]
        omega
      | succ j2 =>
        have hne : i2 ≠ j2 := fun hh => hij (by simp [hh])
        have := ih hne ha hb
        simp [sumBy]
        omega

theorem mem_nth {α : Type} {l : List α} {a : α} (h : a ∈ l) : ∃ i, nth l i = some a := by
  induction l with
  | nil => simp at h
  | cons x xs ih =>
    rcases List.mem_cons.mp h with h1 | h1
    · exact ⟨0, by simp [nth, h1]⟩
    · rcases ih h1 with ⟨i, hi⟩
      exact ⟨i + 1, by simpa [nth] using hi⟩

/-- The system invariant: the semaphore never exceeds capacity and its count
is exactly the tokens held by submitters between acquire and re-check, by
unfinished workers, and by closers; at most one closer ever wins the swap and
only while the gate is closed; the error channel is closed only by a finished
winner, never overflows its buffer, and holds every delivered error; the
process has not crashed. -/
structure Inv (g : GSt) : Prop where
  cap_pos : 1 ≤ g.cap
  sem_le : g.sem ≤ g.cap
  sem_eq : g.sem = sumBy subTok g.subs + sumBy wkTok g.wks + sumBy (clTok g.cap) g.cls
  win_le : sumBy winTok g.cls ≤ 1
  win_open : g.closed = false → sumBy winTok g.cls = 0
  ec_won : g.errsClosed = true → 0 < sumBy wonTok g.cls
  no_crash : g.crashed = false
  errs_le : g.errs.length ≤ g.errCap
  deliv : ∀ w ∈ g.wks, w.delivered = true → ∃ e, w.outcome = Outcome.fail e ∧ e ∈ g.errs
  sendo : ∀ w ∈ g.wks, ∀ e, w.pc = WPC.sending e → w.outcome = Outcome.fail e

theorem wkTok_eq_zero {w : WkT} (h : wkTok w = 0) : w.pc = WPC.done := by
  cases hpc : w.pc <;> simp [wkTok, hpc] at h ⊢

/-- Once the error channel is closed, every worker has finished: the closing
winner holds all capacity tokens, so no worker can still hold one. -/
theorem errsClosed_workers_done {g : GSt} (hi : Inv g) (hec : g.errsClosed = true) :
    ∀ w ∈ g.wks, w.pc = WPC.done := by
  intro w hw
  rcases exists_pos_of_sumBy_pos wonTok (hi.ec_won hec) with ⟨c, hc, hcpos⟩
  have hcw : c = CPC.doneWon := by cases c <;> simp [wonTok] at hcpos ⊢
  subst hcw
  have hcl : g.cap ≤ sumBy (clTok g.cap) g.cls := by
    have := sumBy_le_of_mem (clTok g.cap) hc
    simpa [clTok] using this
  have heq := hi.sem_eq
  have hle := hi.sem_le
  have hW : sumBy wkTok g.wks = 0 := by omega
  exact wkTok_eq_zero (sumBy_eq_zero_of_mem wkTok hW hw)

/-- While a closer is still in its acquisition loop, the error channel has not
yet been closed: there can be at most one winner. -/
theorem acq_not_errsClosed {g : GSt} (hi : Inv g) {i k : Nat}
    (h : nth g.cls i = some (CPC.acq k)) : g.errsClosed = false := by
  by_contra hc
  have hec : g.errsClosed = true := by
    cases hg : g.errsClosed
    · exact absurd hg hc
    · rfl
  rcases exists_pos_of_sumBy_pos wonTok (hi.ec_won hec) with ⟨c, hcmem, hcpos⟩
  have hcw : c = CPC.doneWon := by cases c <;> simp [wonTok] at hcpos ⊢
  subst hcw
  rcases mem_nth hcmem with ⟨j, hj⟩
  have hij : i ≠ j := by
    intro hh
    rw [hh] at h
    rw [h] at hj
    exact absurd (Option.some.inj hj) (by simp)
  have := sumBy_two_nth winTok hij h hj
  have hle := hi.win_le
  simp [winTok] at this
  omega

theorem subTok_val (s : SubT) : subTok s = if s.pc = SPC.recheck then 1 else 0 := by
  cases hpc : s.pc <;> simp [subTok, hpc]

theorem wkTok_val (w : WkT) : wkTok w = if w.pc = WPC.done then 0 else 1 := by
  cases hpc : w.pc <;> simp [wkTok, hpc]

theorem sumBy_set_eq {α : Type} (f : α → Nat) {l : List α} {i : Nat} {a : α}
    (h : nth l i = some a) {b : α} (hfb : f b = f a) : sumBy f (l.set i b) = sumBy f l := by
  have := sumBy_set f h b
  omega

theorem cap_NewGate_pos (c : Int) : 1 ≤ (NewGate c).cap := by
  simp only [NewGate]
  split <;> omega

theorem inv_init (c : Int) : Inv (NewGate c) := by
  refine ⟨cap_NewGate_pos c, ?_, ?_, ?_, ?_, ?_, ?_, ?_, ?_, ?_⟩ <;>
    simp [NewGate, sumBy, defaultErrBuffer]

theorem inv_step {g g2 : GSt} (hi : Inv g) (hs : Step g g2) : Inv g2 := by
  cases hs with
  | newSubmit jb c =>
      refine ⟨hi.cap_pos, hi.sem_le, ?_, hi.win_le, hi.win_open, hi.ec_won, hi.no_crash,
        hi.errs_le, hi.deliv, hi.sendo⟩
      dsimp only
      rw [sumBy_append]
      have := hi.sem_eq
      simp [sumBy, subTok]
      omega
  | newCloser =>
      refine ⟨hi.cap_pos, hi.sem_le, ?_, ?_, ?_, ?_, hi.no_crash, hi.errs_le, hi.deliv, hi.sendo⟩
      · dsimp only
        rw [sumBy_append]
        have := hi.sem_eq
        simp [sumBy, clTok]
        omega
      · dsimp only
        rw [sumBy_append]
        have := hi.win_le
        simp [sumBy, winTok]
        omega
      · intro hc
        dsimp only at hc ⊢
        rw [sumBy_append]
        have := hi.win_open hc
        simp [sumBy, winTok]
        omega
      · intro hc
        dsimp only at hc ⊢
        rw [sumBy_append]
        have := hi.ec_won hc
        simp [sumBy, wonTok]
        omega
  | ctxFireSub i s h =>
      refine ⟨hi.cap_pos, hi.sem_le, ?_, hi.win_le, hi.win_open, hi.ec_won, hi.no_crash,
        hi.errs_le, hi.deliv, hi.sendo⟩
      dsimp only
      rw [sumBy_set_eq subTok h (by simp [subTok_val])]
      exact hi.sem_eq
  | ctxFireWk i w h =>
      refine ⟨hi.cap_pos, hi.sem_le, ?_, hi.win_le, hi.win_open, hi.ec_won, hi.no_crash,
        hi.errs_le, ?_, ?_⟩
      · dsimp only
        rw [sumBy_set_eq wkTok h (by simp [wkTok_val])]
        exact hi.sem_eq
      · intro w3 hw3 hd
        rcases mem_of_set hw3 with rfl | hmem
        · exact hi.deliv w (nth_mem h) hd
        · exact hi.deliv w3 hmem hd
      · intro w3 hw3 e hpc
        rcases mem_of_set hw3 with rfl | hmem
        · exact hi.sendo w (nth_mem h) e hpc
        · exact hi.sendo w3 hmem e hpc
  | subNilRej i s h hpc hj =>
      refine ⟨hi.cap_pos, hi.sem_le, ?_, hi.win_le, hi.win_open, hi.ec_won, hi.no_crash,
        hi.errs_le, hi.deliv, hi.sendo⟩
      dsimp only
      rw [sumBy_set_eq subTok h (by simp [subTok_val, hpc])]
      exact hi.sem_eq
  | subNilOk i s o h hpc hj =>
      refine ⟨hi.cap_pos, hi.sem_le, ?_, hi.win_le, hi.win_open, hi.ec_won, hi.no_crash,
        hi.errs_le, hi.deliv, hi.sendo⟩
      dsimp only
      rw [sumBy_set_eq subTok h (by simp [subTok_val, hpc])]
      exact hi.sem_eq
  | subClosedRej i s h hpc hc =>
      refine ⟨hi.cap_pos, hi.sem_le, ?_, hi.win_le, hi.win_open, hi.ec_won, hi.no_crash,
        hi.errs_le, hi.deliv, hi.sendo⟩
      dsimp only
      rw [sumBy_set_eq subTok h (by simp [subTok_val, hpc])]
      exact hi.sem_eq
  | subClosedOk i s h hpc hc =>
      refine ⟨hi.cap_pos, hi.sem_le, ?_, hi.win_le, hi.win_open, hi.ec_won, hi.no_crash,
        hi.errs_le, hi.deliv, hi.sendo⟩
      dsimp only
      rw [sumBy_set_eq subTok h (by simp [subTok_val, hpc])]
      exact hi.sem_eq
  | subAcquire i s h hpc hs2 =>
      refine ⟨hi.cap_pos, by dsimp only; have := hi.sem_le; omega, ?_, hi.win_le, hi.win_open, hi.ec_won,
        hi.no_crash, hi.errs_le, hi.deliv, hi.sendo⟩
      dsimp only
      have hset := sumBy_set subTok h { s with pc := SPC.recheck }
      have := hi.sem_eq
      simp [subTok_val, hpc] at hset
      omega
  | subCtxExit i s h hpc hctx =>
      refine ⟨hi.cap_pos, hi.sem_le, ?_, hi.win_le, hi.win_open, hi.ec_won, hi.no_crash,
        hi.errs_le, hi.deliv, hi.sendo⟩
      dsimp only
      rw [sumBy_set_eq subTok h (by simp [subTok_val, hpc])]
      exact hi.sem_eq
  | subRecheckRej i s h hpc hc hs2 =>
      refine ⟨hi.cap_pos, by dsimp only; have := hi.sem_le; omega, ?_, hi.win_le, hi.win_open, hi.ec_won,
        hi.no_crash, hi.errs_le, hi.deliv, hi.sendo⟩
      dsimp only
      have hset := sumBy_set subTok h { s with pc := SPC.done SResult.errShutdown }
      have hsm : subTok s = 1 := by simp [subTok_val, hpc]
      have hle := sumBy_le_of_mem subTok (nth_mem h)
      have := hi.sem_eq
      simp [subTok_val, hpc] at hset
      omega
  | subSpawn i s o h hpc hc hj =>
      refine ⟨hi.cap_pos, hi.sem_le, ?_, hi.win_le, hi.win_open, hi.ec_won, hi.no_crash,
        hi.errs_le, ?_, ?_⟩
      · dsimp only
        have hset := sumBy_set subTok h { s with pc := SPC.done SResult.ok }
        have hle := sumBy_le_of_mem subTok (nth_mem h)
        have := hi.sem_eq
        rw [sumBy_append]
        simp [subTok_val, hpc] at hset
        simp [sumBy, wkTok]
        omega
      · intro w3 hw3 hd
        rcases (List.mem_append.mp hw3) with hmem | hmem
        · exact hi.deliv w3 hmem hd
        · simp at hmem
          subst hmem
          simp at hd
      · intro w3 hw3 e hpc3
        rcases (List.mem_append.mp hw3) with hmem | hmem
        · exact hi.sendo w3 hmem e hpc3
        · simp at hmem
          subst hmem
          simp at hpc3
  | wkCtxSkip i w h hpc hctx =>
      refine ⟨hi.cap_pos, hi.sem_le, ?_, hi.win_le, hi.win_open, hi.ec_won, hi.no_crash,
        hi.errs_le, ?_, ?_⟩
      · dsimp only
        rw [sumBy_set_eq wkTok h (by simp [wkTok_val, hpc])]
        exact hi.sem_eq
      · intro w3 hw3 hd
        rcases mem_of_set hw3 with rfl | hmem
        · exact hi.deliv w (nth_mem h) hd
        · exact hi.deliv w3 hmem hd
      · intro w3 hw3 e hpc3
        rcases mem_of_set hw3 with rfl | hmem
        · simp at hpc3
        · exact hi.sendo w3 hmem e hpc3
  | wkCtxGo i w h hpc hctx =>
      refine ⟨hi.cap_pos, hi.sem_le, ?_, hi.win_le, hi.win_open, hi.ec_won, hi.no_crash,
        hi.errs_le, ?_, ?_⟩
      · dsimp only
        rw [sumBy_set_eq wkTok h (by simp [wkTok_val, hpc])]
        exact hi.sem_eq
      · intro w3 hw3 hd
        rcases mem_of_set hw3 with rfl | hmem
        · exact hi.deliv w (nth_mem h) hd
        · exact hi.deliv w3 hmem hd
      · intro w3 hw3 e hpc3
        rcases mem_of_set hw3 with rfl | hmem
        · simp at hpc3
        · exact hi.sendo w3 hmem e hpc3
  | wkRunOk i w h hpc ho =>
      refine ⟨hi.cap_pos, hi.sem_le, ?_, hi.win_le, hi.win_open, hi.ec_won, hi.no_crash,
        hi.errs_le, ?_, ?_⟩
      · dsimp only
        rw [sumBy_set_eq wkTok h (by simp [wkTok_val, hpc])]
        exact hi.sem_eq
      · intro w3 hw3 hd
        rcases mem_of_set hw3 with rfl | hmem
        · exact hi.deliv w (nth_mem h) hd
        · exact hi.deliv w3 hmem hd
      · intro w3 hw3 e hpc3
        rcases mem_of_set hw3 with rfl | hmem
        · simp at hpc3
        · exact hi.sendo w3 hmem e hpc3
  | wkRunPanic i w h hpc ho =>
      refine ⟨hi.cap_pos, hi.sem_le, ?_, hi.win_le, hi.win_open, hi.ec_won, hi.no_crash,
        hi.errs_le, ?_, ?_⟩
      · dsimp only
        rw [sumBy_set_eq wkTok h (by simp [wkTok_val, hpc])]
        exact hi.sem_eq
      · intro w3 hw3 hd
        rcases mem_of_set hw3 with rfl | hmem
        · exact hi.deliv w (nth_mem h) hd
        · exact hi.deliv w3 hmem hd
      · intro w3 hw3 e hpc3
        rcases mem_of_set hw3 with rfl | hmem
        · simp at hpc3
        · exact hi.sendo w3 hmem e hpc3
  | wkRunFail i w e h hpc ho =>
      refine ⟨hi.cap_pos, hi.sem_le, ?_, hi.win_le, hi.win_open, hi.ec_won, hi.no_crash,
        hi.errs_le, ?_, ?_⟩
      · dsimp only
        rw [sumBy_set_eq wkTok h (by simp [wkTok_val, hpc])]
        exact hi.sem_eq
      · intro w3 hw3 hd
        rcases mem_of_set hw3 with rfl | hmem
        · exact hi.deliv w (nth_mem h) hd
        · exact hi.deliv w3 hmem hd
      · intro w3 hw3 e3 hpc3
        rcases mem_of_set hw3 with rfl | hmem
        · simp at hpc3
          subst hpc3
          simpa using ho
        · exact hi.sendo w3 hmem e3 hpc3
  | wkSendOk i w e h hpc hec hlen =>
      refine ⟨hi.cap_pos, hi.sem_le, ?_, hi.win_le, hi.win_open, hi.ec_won, hi.no_crash,
        ?_, ?_, ?_⟩
      · dsimp only
        rw [sumBy_set_eq wkTok h (by simp [wkTok_val, hpc])]
        exact hi.sem_eq
      · dsimp only
        have := hi.errs_le
        simp
        omega
      · intro w3 hw3 hd
        rcases mem_of_set hw3 with rfl | hmem
        · refine ⟨e, ?_, ?_⟩
          · simpa using hi.sendo w (nth_mem h) e hpc
          · simp
        · rcases hi.deliv w3 hmem hd with ⟨e3, ho3, hmem3⟩
          exact ⟨e3, ho3, List.mem_append_left _ hmem3⟩
      · intro w3 hw3 e3 hpc3
        rcases mem_of_set hw3 with rfl | hmem
        · simp at hpc3
        · exact hi.sendo w3 hmem e3 hpc3
  | wkSendDrop i w e h hpc hec hlen =>
      refine ⟨hi.cap_pos, hi.sem_le, ?_, hi.win_le, hi.win_open, hi.ec_won, hi.no_crash,
        hi.errs_le, ?_, ?_⟩
      · dsimp only
        rw [sumBy_set_eq wkTok h (by simp [wkTok_val, hpc])]
        exact hi.sem_eq
      · intro w3 hw3 hd
        rcases mem_of_set hw3 with rfl | hmem
        · exact hi.deliv w (nth_mem h) hd
        · exact hi.deliv w3 hmem hd
      · intro w3 hw3 e3 hpc3
        rcases mem_of_set hw3 with rfl | hmem
        · simp at hpc3
        · exact hi.sendo w3 hmem e3 hpc3
  | wkSendCrash i w e h hpc hec =>
      have := errsClosed_workers_done hi hec w (nth_mem h)
      rw [hpc] at this
      exact absurd this (by simp)
  | wkRelease i w h hpc hs2 =>
      refine ⟨hi.cap_pos, by dsimp only; have := hi.sem_le; omega, ?_, hi.win_le, hi.win_open, hi.ec_won,
        hi.no_crash, hi.errs_le, ?_, ?_⟩
      · dsimp only
        have hset := sumBy_set wkTok h { w with pc := WPC.done }
        have hle := sumBy_le_of_mem wkTok (nth_mem h)
        have := hi.sem_eq
        simp [wkTok_val, hpc] at hset hle
        omega
      · intro w3 hw3 hd
        rcases mem_of_set hw3 with rfl | hmem
        · exact hi.deliv w (nth_mem h) hd
        · exact hi.deliv w3 hmem hd
      · intro w3 hw3 e3 hpc3
        rcases mem_of_set hw3 with rfl | hmem
        · simp at hpc3
        · exact hi.sendo w3 hmem e3 hpc3
  | clLose i h hc =>
      refine ⟨hi.cap_pos, hi.sem_le, ?_, ?_, ?_, ?_, hi.no_crash, hi.errs_le, hi.deliv,
        hi.sendo⟩
      · dsimp only
        rw [sumBy_set_eq (clTok g.cap) h (by simp [clTok])]
        exact hi.sem_eq
      · dsimp only
        rw [sumBy_set_eq winTok h (by simp [winTok])]
        exact hi.win_le
      · intro hc2
        dsimp only at hc2 ⊢
        rw [sumBy_set_eq winTok h (by simp [winTok])]
        exact hi.win_open hc2
      · intro hc2
        dsimp only at hc2 ⊢
        rw [sumBy_set_eq wonTok h (by simp [wonTok])]
        exact hi.ec_won hc2
  | clWin i h hc =>
      refine ⟨hi.cap_pos, hi.sem_le, ?_, ?_, ?_, ?_, hi.no_crash, hi.errs_le, hi.deliv,
        hi.sendo⟩
      · dsimp only
        rw [sumBy_set_eq (clTok g.cap) h (by simp [clTok])]
        exact hi.sem_eq
      · dsimp only
        have hset := sumBy_set winTok h (CPC.acq 0)
        have h0 := hi.win_open hc
        simp [winTok] at hset
        omega
      · intro hc2
        dsimp only at hc2
        simp at hc2
      · intro hc2
        dsimp only at hc2 ⊢
        rw [sumBy_set_eq wonTok h (by simp [wonTok])]
        exact hi.ec_won hc2
  | clAcquire i k h hk hs2 =>
      refine ⟨hi.cap_pos, by dsimp only; have := hi.sem_le; omega, ?_, ?_, ?_, ?_, hi.no_crash, hi.errs_le,
        hi.deliv, hi.sendo⟩
      · dsimp only
        have hset := sumBy_set (clTok g.cap) h (CPC.acq (k + 1))
        have := hi.sem_eq
        simp [clTok] at hset
        omega
      · dsimp only
        rw [sumBy_set_eq winTok h (by simp [winTok])]
        exact hi.win_le
      · intro hc2
        dsimp only at hc2 ⊢
        rw [sumBy_set_eq winTok h (by simp [winTok])]
        exact hi.win_open hc2
      · intro hc2
        dsimp only at hc2 ⊢
        rw [sumBy_set_eq wonTok h (by simp [wonTok])]
        exact hi.ec_won hc2
  | clClose i h hec =>
      refine ⟨hi.cap_pos, hi.sem_le, ?_, ?_, ?_, ?_, hi.no_crash, hi.errs_le, hi.deliv,
        hi.sendo⟩
      · dsimp only
        rw [sumBy_set_eq (clTok g.cap) h (by simp [clTok])]
        exact hi.sem_eq
      · dsimp only
        rw [sumBy_set_eq winTok h (by simp [winTok])]
        exact hi.win_le
      · intro hc2
        dsimp only at hc2 ⊢
        rw [sumBy_set_eq winTok h (by simp [winTok])]
        exact hi.win_open hc2
      · intro hc2
        dsimp only
        have hset := sumBy_set wonTok h CPC.doneWon
        simp [wonTok] at hset
        omega
  | clCloseCrash i h hec =>
      exact absurd (acq_not_errsClosed hi h) (by simp [hec])

theorem inv_reach {g : GSt} (hg : Reach g) : Inv g := by
  induction hg with
  | init c => exact inv_init c
  | step _ hstep ih => exact inv_step ih hstep

/-- Trace T after the Submit call arrived. -/
def exT1 : GSt :=
  ⟨1, 10, false, 0, [], false, false,
    [⟨some Outcome.ok, false, SPC.checkNil⟩],
    [],
    []⟩

/-- Trace T after the nil check passed. -/
def exT2 : GSt :=
  ⟨1, 10, false, 0, [], false, false,
    [⟨some Outcome.ok, false, SPC.checkClosed⟩],
    [],
    []⟩

/-- Trace T after the closed check passed. -/
def exT3 : GSt :=
  ⟨1, 10, false, 0, [], false, false,
    [⟨some Outcome.ok, false, SPC.selecting⟩],
    [],
    []⟩

/-- Trace T after the submitter acquired the semaphore token. -/
def exT4 : GSt :=
  ⟨1, 10, false, 1, [], false, false,
    [⟨some Outcome.ok, false, SPC.recheck⟩],
    [],
    []⟩

/-- Trace T after the re-check passed and the worker was spawned. -/
def exT5 : GSt :=
  ⟨1, 10, false, 1, [], false, false,
    [⟨some Outcome.ok, false, SPC.done SResult.ok⟩],
    [⟨Outcome.ok, false, false, WPC.checkCtx⟩],
    []⟩

/-- Trace T after a CloseAndWait call arrived. -/
def exT6 : GSt :=
  ⟨1, 10, false, 1, [], false, false,
    [⟨some Outcome.ok, false, SPC.done SResult.ok⟩],
    [⟨Outcome.ok, false, false, WPC.checkCtx⟩],
    [CPC.start]⟩

/-- Trace T after the closer won the swap: the closed flag is set. -/
def exT7 : GSt :=
  ⟨1, 10, true, 1, [], false, false,
    [⟨some Outcome.ok, false, SPC.done SResult.ok⟩],
    [⟨Outcome.ok, false, false, WPC.checkCtx⟩],
    [CPC.acq 0]⟩

/-- Trace T with the closed flag set while the worker is about to invoke Job.Run. -/
def exT8 : GSt :=
  ⟨1, 10, true, 1, [], false, false,
    [⟨some Outcome.ok, false, SPC.done SResult.ok⟩],
    [⟨Outcome.ok, false, false, WPC.running⟩],
    [CPC.acq 0]⟩

/-- Trace T after the worker invoked Job.Run although the closed flag was already set. -/
def exT9 : GSt :=
  ⟨1, 10, true, 1, [], false, false,
    [⟨some Outcome.ok, false, SPC.done SResult.ok⟩],
    [⟨Outcome.ok, false, false, WPC.release⟩],
    [CPC.acq 0]⟩

/-- Trace T after the worker released its slot. -/
def exT10 : GSt :=
  ⟨1, 10, true, 0, [], false, false,
    [⟨some Outcome.ok, false, SPC.done SResult.ok⟩],
    [⟨Outcome.ok, false, false, WPC.done⟩],
    [CPC.acq 0]⟩

/-- Trace T after the closer acquired the single capacity token. -/
def exT11 : GSt :=
  ⟨1, 10, true, 1, [], false, false,
    [⟨some Outcome.ok, false, SPC.done SResult.ok⟩],
    [⟨Outcome.ok, false, false, WPC.done⟩],
    [CPC.acq 1]⟩

/-- Trace T after the closer closed the error channel. -/
def exT12 : GSt :=
  ⟨1, 10, true, 1, [], true, false,
    [⟨some Outcome.ok, false, SPC.done SResult.ok⟩],
    [⟨Outcome.ok, false, false, WPC.done⟩],
    [CPC.doneWon]⟩

/-- Trace P, step 1: a capacity 1 gate runs a panicking job to completion, then admits and completes a second job, then shuts down. -/
def exP1 : GSt :=
  ⟨1, 10, false, 0, [], false, false,
    [⟨some Outcome.panics, false, SPC.checkNil⟩],
    [],
    []⟩

/-- Trace P, step 2. -/
def exP2 : GSt :=
  ⟨1, 10, false, 0, [], false, false,
    [⟨some Outcome.panics, false, SPC.checkClosed⟩],
    [],
    []⟩

/-- Trace P, step 3. -/
def exP3 : GSt :=
  ⟨1, 10, false, 0, [], false, false,
    [⟨some Outcome.panics, false, SPC.selecting⟩],
    [],
    []⟩

/-- Trace P, step 4. -/
def exP4 : GSt :=
  ⟨1, 10, false, 1, [], false, false,
    [⟨some Outcome.panics, false, SPC.recheck⟩],
    [],
    []⟩

/-- Trace P, step 5. -/
def exP5 : GSt :=
  ⟨1, 10, false, 1, [], false, false,
    [⟨some Outcome.panics, false, SPC.done SResult.ok⟩],
    [⟨Outcome.panics, false, false, WPC.checkCtx⟩],
    []⟩

/-- Trace P, step 6. -/
def exP6 : GSt :=
  ⟨1, 10, false, 1, [], false, false,
    [⟨some Outcome.panics, false, SPC.done SResult.ok⟩],
    [⟨Outcome.panics, false, false, WPC.running⟩],
    []⟩

/-- Trace P, step 7. -/
def exP7 : GSt :=
  ⟨1, 10, false, 1, [], false, false,
    [⟨some Outcome.panics, false, SPC.done SResult.ok⟩],
    [⟨Outcome.panics, false, false, WPC.release⟩],
    []⟩

/-- Trace P, step 8. -/
def exP8 : GSt :=
  ⟨1, 10, false, 0, [], false, false,
    [⟨some Outcome.panics, false, SPC.done SResult.ok⟩],
    [⟨Outcome.panics, false, false, WPC.done⟩],
    []⟩

/-- Trace P, step 9. -/
def exP9 : GSt :=
  ⟨1, 10, false, 0, [], false, false,
    [⟨some Outcome.panics, false, SPC.done SResult.ok⟩,
     ⟨some Outcome.ok, false, SPC.checkNil⟩],
    [⟨Outcome.panics, false, false, WPC.done⟩],
    []⟩

/-- Trace P, step 10. -/
def exP10 : GSt :=
  ⟨1, 10, false, 0, [], false, false,
    [⟨some Outcome.panics, false, SPC.done SResult.ok⟩,
     ⟨some Outcome.ok, false, SPC.checkClosed⟩],
    [⟨Outcome.panics, false, false, WPC.done⟩],
    []⟩

/-- Trace P, step 11. -/
def exP11 : GSt :=
  ⟨1, 10, false, 0, [], false, false,
    [⟨some Outcome.panics, false, SPC.done SResult.ok⟩,
     ⟨some Outcome.ok, false, SPC.selecting⟩],
    [⟨Outcome.panics, false, false, WPC.done⟩],
    []⟩

/-- Trace P, step 12. -/
def exP12 : GSt :=
  ⟨1, 10, false, 1, [], false, false,
    [⟨some Outcome.panics, false, SPC.done SResult.ok⟩,
     ⟨some Outcome.ok, false, SPC.recheck⟩],
    [⟨Outcome.panics, false, false, WPC.done⟩],
    []⟩

/-- Trace P, step 13. -/
def exP13 : GSt :=
  ⟨1, 10, false, 1, [], false, false,
    [⟨some Outcome.panics, false, SPC.done SResult.ok⟩,
     ⟨some Outcome.ok, false, SPC.done SResult.ok⟩],
    [⟨Outcome.panics, false, false, WPC.done⟩,
     ⟨Outcome.ok, false, false, WPC.checkCtx⟩],
    []⟩

/-- Trace P, step 14. -/
def exP14 : GSt :=
  ⟨1, 10, false, 1, [], false, false,
    [⟨some Outcome.panics, false, SPC.done SResult.ok⟩,
     ⟨some Outcome.ok, false, SPC.done SResult.ok⟩],
    [⟨Outcome.panics, false, false, WPC.done⟩,
     ⟨Outcome.ok, false, false, WPC.running⟩],
    []⟩

/-- Trace P, step 15. -/
def exP15 : GSt :=
  ⟨1, 10, false, 1, [], false, false,
    [⟨some Outcome.panics, false, SPC.done SResult.ok⟩,
     ⟨some Outcome.ok, false, SPC.done SResult.ok⟩],
    [⟨Outcome.panics, false, false, WPC.done⟩,
     ⟨Outcome.ok, false, false, WPC.release⟩],
    []⟩

/-- Trace P, step 16. -/
def exP16 : GSt :=
  ⟨1, 10, false, 0, [], false, false,
    [⟨some Outcome.panics, false, SPC.done SResult.ok⟩,
     ⟨some Outcome.ok, false, SPC.done SResult.ok⟩],
    [⟨Outcome.panics, false, false, WPC.done⟩,
     ⟨Outcome.ok, false, false, WPC.done⟩],
    []⟩

/-- Trace P, step 17. -/
def exP17 : GSt :=
  ⟨1, 10, false, 0, [], false, false,
    [⟨some Outcome.panics, false, SPC.done SResult.ok⟩,
     ⟨some Outcome.ok, false, SPC.done SResult.ok⟩],
    [⟨Outcome.panics, false, false, WPC.done⟩,
     ⟨Outcome.ok, false, false, WPC.done⟩],
    [CPC.start]⟩

/-- Trace P, step 18. -/
def exP18 : GSt :=
  ⟨1, 10, true, 0, [], false, false,
    [⟨some Outcome.panics, false, SPC.done SResult.ok⟩,
     ⟨some Outcome.ok, false, SPC.done SResult.ok⟩],
    [⟨Outcome.panics, false, false, WPC.done⟩,
     ⟨Outcome.ok, false, false, WPC.done⟩],
    [CPC.acq 0]⟩

/-- Trace P, step 19. -/
def exP19 : GSt :=
  ⟨1, 10, true, 1, [], false, false,
    [⟨some Outcome.panics, false, SPC.done SResult.ok⟩,
     ⟨some Outcome.ok, false, SPC.done SResult.ok⟩],
    [⟨Outcome.panics, false, false, WPC.done⟩,
     ⟨Outcome.ok, false, false, WPC.done⟩],
    [CPC.acq 1]⟩

/-- Trace P, step 20. -/
def exP20 : GSt :=
  ⟨1, 10, true, 1, [], true, false,
    [⟨some Outcome.panics, false, SPC.done SResult.ok⟩,
     ⟨some Outcome.ok, false, SPC.done SResult.ok⟩],
    [⟨Outcome.panics, false, false, WPC.done⟩,
     ⟨Outcome.ok, false, false, WPC.done⟩],
    [CPC.doneWon]⟩

theorem reach_exT1 : Reach exT1 :=
  Reach.step (Reach.init 1) (Step.newSubmit (NewGate 1) (some Outcome.ok) false)

theorem reach_exT2 : Reach exT2 :=
  Reach.step reach_exT1 (Step.subNilOk exT1 0 ⟨some Outcome.ok, false, SPC.checkNil⟩ Outcome.ok rfl rfl rfl)

theorem reach_exT3 : Reach exT3 :=
  Reach.step reach_exT2 (Step.subClosedOk exT2 0 ⟨some Outcome.ok, false, SPC.checkClosed⟩ rfl rfl rfl)

theorem reach_exT4 : Reach exT4 :=
  Reach.step reach_exT3 (Step.subAcquire exT3 0 ⟨some Outcome.ok, false, SPC.selecting⟩ rfl rfl (by decide))

theorem reach_exT5 : Reach exT5 :=
  Reach.step reach_exT4 (Step.subSpawn exT4 0 ⟨some Outcome.ok, false, SPC.recheck⟩ Outcome.ok rfl rfl rfl rfl)

theorem reach_exT6 : Reach exT6 :=
  Reach.step reach_exT5 (Step.newCloser exT5)

theorem reach_exT7 : Reach exT7 :=
  Reach.step reach_exT6 (Step.clWin exT6 0 rfl rfl)

theorem reach_exT8 : Reach exT8 :=
  Reach.step reach_exT7 (Step.wkCtxGo exT7 0 ⟨Outcome.ok, false, false, WPC.checkCtx⟩ rfl rfl rfl)

theorem reach_exT9 : Reach exT9 :=
  Reach.step reach_exT8 (Step.wkRunOk exT8 0 ⟨Outcome.ok, false, false, WPC.running⟩ rfl rfl rfl)

theorem reach_exT10 : Reach exT10 :=
  Reach.step reach_exT9 (Step.wkRelease exT9 0 ⟨Outcome.ok, false, false, WPC.release⟩ rfl rfl (by decide))

theorem reach_exT11 : Reach exT11 :=
  Reach.step reach_exT10 (Step.clAcquire exT10 0 0 rfl (by decide) (by decide))

theorem reach_exT12 : Reach exT12 :=
  Reach.step reach_exT11 (Step.clClose exT11 0 rfl rfl)

theorem step_exT8_exT9 : Step exT8 exT9 :=
  Step.wkRunOk exT8 0 ⟨Outcome.ok, false, false, WPC.running⟩ rfl rfl rfl

theorem reach_exP1 : Reach exP1 :=
  Reach.step (Reach.init 1) (Step.newSubmit (NewGate 1) (some Outcome.panics) false)

theorem reach_exP2 : Reach exP2 :=
  Reach.step reach_exP1 (Step.subNilOk exP1 0 ⟨some Outcome.panics, false, SPC.checkNil⟩ Outcome.panics rfl rfl rfl)

theorem reach_exP3 : Reach exP3 :=
  Reach.step reach_exP2 (Step.subClosedOk exP2 0 ⟨some Outcome.panics, false, SPC.checkClosed⟩ rfl rfl rfl)

theorem reach_exP4 : Reach exP4 :=
  Reach.step reach_exP3 (Step.subAcquire exP3 0 ⟨some Outcome.panics, false, SPC.selecting⟩ rfl rfl (by decide))

theorem reach_exP5 : Reach exP5 :=
  Reach.step reach_exP4 (Step.subSpawn exP4 0 ⟨some Outcome.panics, false, SPC.recheck⟩ Outcome.panics rfl rfl rfl rfl)

theorem reach_exP6 : Reach exP6 :=
  Reach.step reach_exP5 (Step.wkCtxGo exP5 0 ⟨Outcome.panics, false, false, WPC.checkCtx⟩ rfl rfl rfl)

theorem reach_exP7 : Reach exP7 :=
  Reach.step reach_exP6 (Step.wkRunPanic exP6 0 ⟨Outcome.panics, false, false, WPC.running⟩ rfl rfl rfl)

theorem reach_exP8 : Reach exP8 :=
  Reach.step reach_exP7 (Step.wkRelease exP7 0 ⟨Outcome.panics, false, false, WPC.release⟩ rfl rfl (by decide))

theorem reach_exP9 : Reach exP9 :=
  Reach.step reach_exP8 (Step.newSubmit exP8 (some Outcome.ok) false)

theorem reach_exP10 : Reach exP10 :=
  Reach.step reach_exP9 (Step.subNilOk exP9 1 ⟨some Outcome.ok, false, SPC.checkNil⟩ Outcome.ok rfl rfl rfl)

theorem reach_exP11 : Reach exP11 :=
  Reach.step reach_exP10 (Step.subClosedOk exP10 1 ⟨some Outcome.ok, false, SPC.checkClosed⟩ rfl rfl rfl)

theorem reach_exP12 : Reach exP12 :=
  Reach.step reach_exP11 (Step.subAcquire exP11 1 ⟨some Outcome.ok, false, SPC.selecting⟩ rfl rfl (by decide))

theorem reach_exP13 : Reach exP13 :=
  Reach.step reach_exP12 (Step.subSpawn exP12 1 ⟨some Outcome.ok, false, SPC.recheck⟩ Outcome.ok rfl rfl rfl rfl)

theorem reach_exP14 : Reach exP14 :=
  Reach.step reach_exP13 (Step.wkCtxGo exP13 1 ⟨Outcome.ok, false, false, WPC.checkCtx⟩ rfl rfl rfl)

theorem reach_exP15 : Reach exP15 :=
  Reach.step reach_exP14 (Step.wkRunOk exP14 1 ⟨Outcome.ok, false, false, WPC.running⟩ rfl rfl rfl)

theorem reach_exP16 : Reach exP16 :=
  Reach.step reach_exP15 (Step.wkRelease exP15 1 ⟨Outcome.ok, false, false, WPC.release⟩ rfl rfl (by decide))

theorem reach_exP17 : Reach exP17 :=
  Reach.step reach_exP16 (Step.newCloser exP16)

theorem reach_exP18 : Reach exP18 :=
  Reach.step reach_exP17 (Step.clWin exP17 0 rfl rfl)

theorem reach_exP19 : Reach exP19 :=
  Reach.step reach_exP18 (Step.clAcquire exP18 0 0 rfl (by decide) (by decide))

theorem reach_exP20 : Reach exP20 :=
  Reach.step reach_exP19 (Step.clClose exP19 0 rfl rfl)

/-- The closed flag is monotone: no step ever resets it. -/
theorem closed_mono {g g2 : GSt} (hs : Step g g2) (h : g.closed = true) : g2.closed = true := by
  cases hs <;> first | exact h | rfl

/-- The errsClosed flag is monotone: a closed error channel stays closed. -/
theorem ec_mono {g g2 : GSt} (hs : Step g g2) (h : g.errsClosed = true) : g2.errsClosed = true := by
  cases hs <;> first | exact h | rfl

/-- When the semaphore is full no step can grow it: every admission and every
closer acquisition is guarded by room in the channel. -/
theorem sem_no_increase_full {g g2 : GSt} (hs : Step g g2) (hfull : g.cap ≤ g.sem) :
    g2.sem ≤ g.sem := by
  cases hs <;> (dsimp only; omega)

/-- A finished winner exists only once the error channel has been closed. -/
theorem won_errsClosed {g : GSt} (hr : Reach g) :
    0 < sumBy wonTok g.cls → g.errsClosed = true := by
  induction hr with
  | init c => intro h; simp [NewGate, sumBy] at h
  | step hr hstep ih =>
    cases hstep with
    | newCloser =>
        intro h
        dsimp only at h ⊢
        rw [sumBy_append] at h
        simp [sumBy, wonTok] at h
        exact ih h
    | clLose i h2 hc =>
        intro h
        dsimp only at h ⊢
        rw [sumBy_set_eq wonTok h2 (by simp [wonTok])] at h
        exact ih h
    | clWin i h2 hc =>
        intro h
        dsimp only at h ⊢
        rw [sumBy_set_eq wonTok h2 (by simp [wonTok])] at h
        exact ih h
    | clAcquire i k h2 hk hs2 =>
        intro h
        dsimp only at h ⊢
        rw [sumBy_set_eq wonTok h2 (by simp [wonTok])] at h
        exact ih h
    | clClose i h2 hec => intro h; rfl
    | clCloseCrash i h2 hec => intro h; exact hec
    | _ => exact ih

/-- A closer that finished as the winner never changes state again. -/
theorem doneWon_persists {g g2 : GSt} {i : Nat}
    (h : nth g.cls i = some CPC.doneWon) (hs : Step g g2) :
    nth g2.cls i = some CPC.doneWon := by
  cases hs with
  | newCloser => exact nth_append_left _ h
  | clLose j hj hc =>
      rcases eq_or_ne j i with rfl | hne
      · rw [h] at hj; simp at hj
      · rw [nth_set_ne _ _ _ _ hne]; exact h
  | clWin j hj hc =>
      rcases eq_or_ne j i with rfl | hne
      · rw [h] at hj; simp at hj
      · rw [nth_set_ne _ _ _ _ hne]; exact h
  | clAcquire j k hj hk hs2 =>
      rcases eq_or_ne j i with rfl | hne
      · rw [h] at hj; simp at hj
      · rw [nth_set_ne _ _ _ _ hne]; exact h
  | clClose j hj hec =>
      rcases eq_or_ne j i with rfl | hne
      · rw [h] at hj; simp at hj
      · rw [nth_set_ne _ _ _ _ hne]; exact h
  | clCloseCrash j hj hec =>
      rcases eq_or_ne j i with rfl | hne
      · rw [h] at hj; simp at hj
      · rw [nth_set_ne _ _ _ _ hne]; exact h
  | _ => exact h

/-- Facts holding in any reachable state in which some CloseAndWait call has
returned: the gate is closed, the error channel is closed, the semaphore is
pinned at capacity, no submitter holds a token, and every worker finished. -/
theorem doneWon_state {g : GSt} {i : Nat} (hr : Reach g)
    (h : nth g.cls i = some CPC.doneWon) :
    g.closed = true ∧ g.errsClosed = true ∧ g.sem = g.cap ∧
    (∀ w ∈ g.wks, w.pc = WPC.done) ∧ sumBy subTok g.subs = 0 ∧
    runningJobs g = 0 := by
  have hi := inv_reach hr
  have hcl : g.cap ≤ sumBy (clTok g.cap) g.cls := by
    have := sumBy_le_of_mem (clTok g.cap) (nth_mem h)
    simpa [clTok] using this
  have heq := hi.sem_eq
  have hle := hi.sem_le
  have hwin : 0 < sumBy winTok g.cls := by
    have := sumBy_le_of_mem winTok (nth_mem h)
    simp [winTok] at this
    omega
  have hclosed : g.closed = true := by
    cases hc : g.closed
    · have := hi.win_open hc; omega
    · rfl
  have hec : g.errsClosed = true := by
    apply won_errsClosed hr
    have := sumBy_le_of_mem wonTok (nth_mem h)
    simp [wonTok] at this
    omega
  have hW : sumBy wkTok g.wks = 0 := by omega
  refine ⟨hclosed, hec, by omega, ?_, by omega, hW⟩
  intro w hw
  exact wkTok_eq_zero (sumBy_eq_zero_of_mem wkTok hW hw)

/-- A worker that has not finished still holds its semaphore token. -/
theorem wk_active_sem_pos {g : GSt} {i : Nat} {w : WkT} (hi : Inv g)
    (h : nth g.wks i = some w) (hpc : w.pc ≠ WPC.done) : 0 < g.sem := by
  have htok : wkTok w = 1 := by
    rw [wkTok_val]
    simp [hpc]
  have := sumBy_le_of_mem wkTok (nth_mem h)
  have heq := hi.sem_eq
  omega

/-- While any worker is unfinished the error channel is still open. -/
theorem wk_active_not_ec {g : GSt} {i : Nat} {w : WkT} (hr : Reach g)
    (h : nth g.wks i = some w) (hpc : w.pc ≠ WPC.done) : g.errsClosed = false := by
  cases hec : g.errsClosed
  · rfl
  · exact absurd (errsClosed_workers_done (inv_reach hr) hec w (nth_mem h)) hpc

theorem some_inj {α : Type} {a b : α} (h : (some a : Option α) = some b) : a = b :=
  Option.some.inj h

/-- Local transition relation of one submitter position: across any single
step of the whole system, the submitter at position j is untouched, has its
context fire, or takes exactly one of the guarded Submit transitions of
grlimit.go. -/
theorem sub_next {g g2 : GSt} {j : Nat} {s : SubT}
    (hj : nth g.subs j = some s) (hs : Step g g2) :
    ∀ s2, nth g2.subs j = some s2 →
      s2 = s ∨ s2 = { s with ctx := true } ∨
      (s.pc = SPC.checkNil ∧ s.jb = none ∧ s2 = { s with pc := SPC.done SResult.errNilJob }) ∨
      (s.pc = SPC.checkNil ∧ (∃ o, s.jb = some o) ∧ s2 = { s with pc := SPC.checkClosed }) ∨
      (s.pc = SPC.checkClosed ∧ g.closed = true ∧ s2 = { s with pc := SPC.done SResult.errShutdown }) ∨
      (s.pc = SPC.checkClosed ∧ g.closed = false ∧ s2 = { s with pc := SPC.selecting }) ∨
      (s.pc = SPC.selecting ∧ g.sem < g.cap ∧ s2 = { s with pc := SPC.recheck }) ∨
      (s.pc = SPC.selecting ∧ s.ctx = true ∧ s2 = { s with pc := SPC.done SResult.errCtx }) ∨
      (s.pc = SPC.recheck ∧ g.closed = true ∧ s2 = { s with pc := SPC.done SResult.errShutdown }) ∨
      (s.pc = SPC.recheck ∧ g.closed = false ∧ s2 = { s with pc := SPC.done SResult.ok }) := by
  cases hs with
  | newSubmit jb c =>
      intro s2 hs2
      dsimp only at hs2
      rw [nth_append_left _ hj] at hs2
      exact Or.inl (some_inj hs2).symm
  | ctxFireSub i t h2 =>
      intro s2 hs2
      dsimp only at hs2
      rcases eq_or_ne i j with rfl | hne
      · rw [hj] at h2
        cases some_inj h2
        rw [nth_set_self hj _] at hs2
        exact Or.inr (Or.inl (some_inj hs2).symm)
      · rw [nth_set_ne _ _ _ _ hne, hj] at hs2
        exact Or.inl (some_inj hs2).symm
  | subNilRej i t h2 hpc2 hj2 =>
      intro s2 hs2
      dsimp only at hs2
      rcases eq_or_ne i j with rfl | hne
      · rw [hj] at h2
        cases some_inj h2
        rw [nth_set_self hj _] at hs2
        exact Or.inr (Or.inr (Or.inl ⟨hpc2, hj2, (some_inj hs2).symm⟩))
      · rw [nth_set_ne _ _ _ _ hne, hj] at hs2
        exact Or.inl (some_inj hs2).symm
  | subNilOk i t o h2 hpc2 hj2 =>
      intro s2 hs2
      dsimp only at hs2
      rcases eq_or_ne i j with rfl | hne
      · rw [hj] at h2
        cases some_inj h2
        rw [nth_set_self hj _] at hs2
        exact Or.inr (Or.inr (Or.inr (Or.inl ⟨hpc2, ⟨o, hj2⟩, (some_inj hs2).symm⟩)))
      · rw [nth_set_ne _ _ _ _ hne, hj] at hs2
        exact Or.inl (some_inj hs2).symm
  | subClosedRej i t h2 hpc2 hc2 =>
      intro s2 hs2
      dsimp only at hs2
      rcases eq_or_ne i j with rfl | hne
      · rw [hj] at h2
        cases some_inj h2
        rw [nth_set_self hj _] at hs2
        exact Or.inr (Or.inr (Or.inr (Or.inr (Or.inl ⟨hpc2, hc2, (some_inj hs2).symm⟩))))
      · rw [nth_set_ne _ _ _ _ hne, hj] at hs2
        exact Or.inl (some_inj hs2).symm
  | subClosedOk i t h2 hpc2 hc2 =>
      intro s2 hs2
      dsimp only at hs2
      rcases eq_or_ne i j with rfl | hne
      · rw [hj] at h2
        cases some_inj h2
        rw [nth_set_self hj _] at hs2
        exact Or.inr (Or.inr (Or.inr (Or.inr (Or.inr (Or.inl ⟨hpc2, hc2, (some_inj hs2).symm⟩)))))
      · rw [nth_set_ne _ _ _ _ hne, hj] at hs2
        exact Or.inl (some_inj hs2).symm
  | subAcquire i t h2 hpc2 hs2g =>
      intro s2 hs2
      dsimp only at hs2
      rcases eq_or_ne i j with rfl | hne
      · rw [hj] at h2
        cases some_inj h2
        rw [nth_set_self hj _] at hs2
        exact Or.inr (Or.inr (Or.inr (Or.inr (Or.inr (Or.inr (Or.inl
          ⟨hpc2, hs2g, (some_inj hs2).symm⟩))))))
      · rw [nth_set_ne _ _ _ _ hne, hj] at hs2
        exact Or.inl (some_inj hs2).symm
  | subCtxExit i t h2 hpc2 hctx2 =>
      intro s2 hs2
      dsimp only at hs2
      rcases eq_or_ne i j with rfl | hne
      · rw [hj] at h2
        cases some_inj h2
        rw [nth_set_self hj _] at hs2
        exact Or.inr (Or.inr (Or.inr (Or.inr (Or.inr (Or.inr (Or.inr (Or.inl
          ⟨hpc2, hctx2, (some_inj hs2).symm⟩)))))))
      · rw [nth_set_ne _ _ _ _ hne, hj] at hs2
        exact Or.inl (some_inj hs2).symm
  | subRecheckRej i t h2 hpc2 hc2 hs2g =>
      intro s2 hs2
      dsimp only at hs2
      rcases eq_or_ne i j with rfl | hne
      · rw [hj] at h2
        cases some_inj h2
        rw [nth_set_self hj _] at hs2
        exact Or.inr (Or.inr (Or.inr (Or.inr (Or.inr (Or.inr (Or.inr (Or.inr (Or.inl
          ⟨hpc2, hc2, (some_inj hs2).symm⟩))))))))
      · rw [nth_set_ne _ _ _ _ hne, hj] at hs2
        exact Or.inl (some_inj hs2).symm
  | subSpawn i t o h2 hpc2 hc2 hj2 =>
      intro s2 hs2
      dsimp only at hs2
      rcases eq_or_ne i j with rfl | hne
      · rw [hj] at h2
        cases some_inj h2
        rw [nth_set_self hj _] at hs2
        exact Or.inr (Or.inr (Or.inr (Or.inr (Or.inr (Or.inr (Or.inr (Or.inr (Or.inr
          ⟨hpc2, hc2, (some_inj hs2).symm⟩))))))))
      · rw [nth_set_ne _ _ _ _ hne, hj] at hs2
        exact Or.inl (some_inj hs2).symm
  | ctxFireWk i w h2 =>
      intro s2 hs2
      dsimp only at hs2
      rw [hj] at hs2
      exact Or.inl (some_inj hs2).symm
  | newCloser =>
      intro s2 hs2
      dsimp only at hs2
      rw [hj] at hs2
      exact Or.inl (some_inj hs2).symm
  | wkCtxSkip i w h2 hpc2 hctx2 =>
      intro s2 hs2
      dsimp only at hs2
      rw [hj] at hs2
      exact Or.inl (some_inj hs2).symm
  | wkCtxGo i w h2 hpc2 hctx2 =>
      intro s2 hs2
      dsimp only at hs2
      rw [hj] at hs2
      exact Or.inl (some_inj hs2).symm
  | wkRunOk i w h2 hpc2 ho2 =>
      intro s2 hs2
      dsimp only at hs2
      rw [hj] at hs2
      exact Or.inl (some_inj hs2).symm
  | wkRunPanic i w h2 hpc2 ho2 =>
      intro s2 hs2
      dsimp only at hs2
      rw [hj] at hs2
      exact Or.inl (some_inj hs2).symm
  | wkRunFail i w e h2 hpc2 ho2 =>
      intro s2 hs2
      dsimp only at hs2
      rw [hj] at hs2
      exact Or.inl (some_inj hs2).symm
  | wkSendOk i w e h2 hpc2 hec2 hlen2 =>
      intro s2 hs2
      dsimp only at hs2
      rw [hj] at hs2
      exact Or.inl (some_inj hs2).symm
  | wkSendDrop i w e h2 hpc2 hec2 hlen2 =>
      intro s2 hs2
      dsimp only at hs2
      rw [hj] at hs2
      exact Or.inl (some_inj hs2).symm
  | wkSendCrash i w e h2 hpc2 hec2 =>
      intro s2 hs2
      dsimp only at hs2
      rw [hj] at hs2
      exact Or.inl (some_inj hs2).symm
  | wkRelease i w h2 hpc2 hs2g =>
      intro s2 hs2
      dsimp only at hs2
      rw [hj] at hs2
      exact Or.inl (some_inj hs2).symm
  | clLose i h2 hc2 =>
      intro s2 hs2
      dsimp only at hs2
      rw [hj] at hs2
      exact Or.inl (some_inj hs2).symm
  | clWin i h2 hc2 =>
      intro s2 hs2
      dsimp only at hs2
      rw [hj] at hs2
      exact Or.inl (some_inj hs2).symm
  | clAcquire i k h2 hk2 hs2g =>
      intro s2 hs2
      dsimp only at hs2
      rw [hj] at hs2
      exact Or.inl (some_inj hs2).symm
  | clClose i h2 hec2 =>
      intro s2 hs2
      dsimp only at hs2
      rw [hj] at hs2
      exact Or.inl (some_inj hs2).symm
  | clCloseCrash i h2 hec2 =>
      intro s2 hs2
      dsimp only at hs2
      rw [hj] at hs2
      exact Or.inl (some_inj hs2).symm

/-- Local transition relation of one closer position: across any single step
of the whole system, the closer at position j is untouched, loses the swap
(with the rest of the state unchanged), wins the swap, acquires one more
token, or finishes by closing the error channel. -/
theorem cls_next {g g2 : GSt} {j : Nat} {c : CPC}
    (hj : nth g.cls j = some c) (hs : Step g g2) :
    ∀ c2, nth g2.cls j = some c2 →
      c2 = c ∨
      (c = CPC.start ∧ g.closed = true ∧ c2 = CPC.doneLost ∧
        g2 = { g with cls := g.cls.set j CPC.doneLost }) ∨
      (c = CPC.start ∧ g.closed = false ∧ c2 = CPC.acq 0) ∨
      (∃ k, c = CPC.acq k ∧ k < g.cap ∧ g.sem < g.cap ∧ c2 = CPC.acq (k + 1)) ∨
      (c = CPC.acq g.cap ∧ c2 = CPC.doneWon) := by
  cases hs with
  | newCloser =>
      intro c2 hs2
      dsimp only at hs2
      rw [nth_append_left _ hj] at hs2
      exact Or.inl (some_inj hs2).symm
  | clLose i h2 hc2 =>
      intro c2 hs2
      dsimp only at hs2
      rcases eq_or_ne i j with rfl | hne
      · rw [hj] at h2
        cases (some_inj h2).symm
        rw [nth_set_self hj _] at hs2
        exact Or.inr (Or.inl ⟨rfl, hc2, (some_inj hs2).symm, rfl⟩)
      · rw [nth_set_ne _ _ _ _ hne, hj] at hs2
        exact Or.inl (some_inj hs2).symm
  | clWin i h2 hc2 =>
      intro c2 hs2
      dsimp only at hs2
      rcases eq_or_ne i j with rfl | hne
      · rw [hj] at h2
        cases (some_inj h2).symm
        rw [nth_set_self hj _] at hs2
        exact Or.inr (Or.inr (Or.inl ⟨rfl, hc2, (some_inj hs2).symm⟩))
      · rw [nth_set_ne _ _ _ _ hne, hj] at hs2
        exact Or.inl (some_inj hs2).symm
  | clAcquire i k h2 hk2 hs2g =>
      intro c2 hs2
      dsimp only at hs2
      rcases eq_or_ne i j with rfl | hne
      · rw [hj] at h2
        cases (some_inj h2).symm
        rw [nth_set_self hj _] at hs2
        exact Or.inr (Or.inr (Or.inr (Or.inl ⟨k, rfl, hk2, hs2g, (some_inj hs2).symm⟩)))
      · rw [nth_set_ne _ _ _ _ hne, hj] at hs2
        exact Or.inl (some_inj hs2).symm
  | clClose i h2 hec2 =>
      intro c2 hs2
      dsimp only at hs2
      rcases eq_or_ne i j with rfl | hne
      · rw [hj] at h2
        cases (some_inj h2).symm
        rw [nth_set_self hj _] at hs2
        exact Or.inr (Or.inr (Or.inr (Or.inr ⟨rfl, (some_inj hs2).symm⟩)))
      · rw [nth_set_ne _ _ _ _ hne, hj] at hs2
        exact Or.inl (some_inj hs2).symm
  | clCloseCrash i h2 hec2 =>
      intro c2 hs2
      dsimp only at hs2
      rcases eq_or_ne i j with rfl | hne
      · rw [hj] at h2
        cases (some_inj h2).symm
        rw [nth_set_self hj _] at hs2
        exact Or.inr (Or.inr (Or.inr (Or.inr ⟨rfl, (some_inj hs2).symm⟩)))
      · rw [nth_set_ne _ _ _ _ hne, hj] at hs2
        exact Or.inl (some_inj hs2).symm
  | newSubmit jb cx =>
      intro c2 hs2
      dsimp only at hs2
      rw [hj] at hs2
      exact Or.inl (some_inj hs2).symm
  | ctxFireSub i t h2 =>
      intro c2 hs2
      dsimp only at hs2
      rw [hj] at hs2
      exact Or.inl (some_inj hs2).symm
  | ctxFireWk i w h2 =>
      intro c2 hs2
      dsimp only at hs2
      rw [hj] at hs2
      exact Or.inl (some_inj hs2).symm
  | subNilRej i t h2 hpc2 hj2 =>
      intro c2 hs2
      dsimp only at hs2
      rw [hj] at hs2
      exact Or.inl (some_inj hs2).symm
  | subNilOk i t o h2 hpc2 hj2 =>
      intro c2 hs2
      dsimp only at hs2
      rw [hj] at hs2
      exact Or.inl (some_inj hs2).symm
  | subClosedRej i t h2 hpc2 hc2 =>
      intro c2 hs2
      dsimp only at hs2
      rw [hj] at hs2
      exact Or.inl (some_inj hs2).symm
  | subClosedOk i t h2 hpc2 hc2 =>
      intro c2 hs2
      dsimp only at hs2
      rw [hj] at hs2
      exact Or.inl (some_inj hs2).symm
  | subAcquire i t h2 hpc2 hs2g =>
      intro c2 hs2
      dsimp only at hs2
      rw [hj] at hs2
      exact Or.inl (some_inj hs2).symm
  | subCtxExit i t h2 hpc2 hctx2 =>
      intro c2 hs2
      dsimp only at hs2
      rw [hj] at hs2
      exact Or.inl (some_inj hs2).symm
  | subRecheckRej i t h2 hpc2 hc2 hs2g =>
      intro c2 hs2
      dsimp only at hs2
      rw [hj] at hs2
      exact Or.inl (some_inj hs2).symm
  | subSpawn i t o h2 hpc2 hc2 hj2 =>
      intro c2 hs2
      dsimp only at hs2
      rw [hj] at hs2
      exact Or.inl (some_inj hs2).symm
  | wkCtxSkip i w h2 hpc2 hctx2 =>
      intro c2 hs2
      dsimp only at hs2
      rw [hj] at hs2
      exact Or.inl (some_inj hs2).symm
  | wkCtxGo i w h2 hpc2 hctx2 =>
      intro c2 hs2
      dsimp only at hs2
      rw [hj] at hs2
      exact Or.inl (some_inj hs2).symm
  | wkRunOk i w h2 hpc2 ho2 =>
      intro c2 hs2
      dsimp only at hs2
      rw [hj] at hs2
      exact Or.inl (some_inj hs2).symm
  | wkRunPanic i w h2 hpc2 ho2 =>
      intro c2 hs2
      dsimp only at hs2
      rw [hj] at hs2
      exact Or.inl (some_inj hs2).symm
  | wkRunFail i w e h2 hpc2 ho2 =>
      intro c2 hs2
      dsimp only at hs2
      rw [hj] at hs2
      exact Or.inl (some_inj hs2).symm
  | wkSendOk i w e h2 hpc2 hec2 hlen2 =>
      intro c2 hs2
      dsimp only at hs2
      rw [hj] at hs2
      exact Or.inl (some_inj hs2).symm
  | wkSendDrop i w e h2 hpc2 hec2 hlen2 =>
      intro c2 hs2
      dsimp only at hs2
      rw [hj] at hs2
      exact Or.inl (some_inj hs2).symm
  | wkSendCrash i w e h2 hpc2 hec2 =>
      intro c2 hs2
      dsimp only at hs2
      rw [hj] at hs2
      exact Or.inl (some_inj hs2).symm
  | wkRelease i w h2 hpc2 hs2g =>
      intro c2 hs2
      dsimp only at hs2
      rw [hj] at hs2
      exact Or.inl (some_inj hs2).symm

/-- The worker at position i can run to completion: some continuation of the
system finishes it, its net effect on the semaphore is the release of exactly
its one token, and it never touches the closed flags, the submitters or the
closers. -/
def wkExit (g : GSt) (i : Nat) (w : WkT) : Prop :=
  ∃ g2 d, Steps g g2 ∧ nth g2.wks i = some ⟨w.outcome, w.ctx, d, WPC.done⟩ ∧
    g2.sem + 1 = g.sem ∧ g2.closed = g.closed ∧ g2.errsClosed = g.errsClosed ∧
    g2.subs = g.subs ∧ g2.cls = g.cls ∧ g2.cap = g.cap

theorem wk_done_from_release {g : GSt} {i : Nat} {w : WkT} (hr : Reach g)
    (h : nth g.wks i = some w) (hpc : w.pc = WPC.release) : wkExit g i w := by
  have hsem : 0 < g.sem := wk_active_sem_pos (inv_reach hr) h (by simp [hpc])
  refine ⟨{ g with sem := g.sem - 1, wks := g.wks.set i { w with pc := WPC.done } },
    w.delivered, steps_single (Step.wkRelease g i w h hpc hsem), ?_, ?_, rfl, rfl, rfl, rfl, rfl⟩
  · exact nth_set_self h _
  · dsimp only
    omega

theorem wk_done_from_sending {g : GSt} {i : Nat} {w : WkT} {e : Nat} (hr : Reach g)
    (h : nth g.wks i = some w) (hpc : w.pc = WPC.sending e) : wkExit g i w := by
  have hec : g.errsClosed = false := wk_active_not_ec hr h (by simp [hpc])
  by_cases hlen : g.errs.length < g.errCap
  · have hstep := Step.wkSendOk g i w e h hpc hec hlen
    have hr1 := Reach.step hr hstep
    have h1 := nth_set_self h { w with delivered := true, pc := WPC.release }
    obtain ⟨g2, d, hsteps, hnth, hsem, hcl, hec2, hsubs, hcls, hcap⟩ :=
      wk_done_from_release hr1 h1 rfl
    exact ⟨g2, d, steps_trans (steps_single hstep) hsteps, hnth, hsem, hcl, hec2,
      hsubs, hcls, hcap⟩
  · have hstep := Step.wkSendDrop g i w e h hpc hec (Nat.le_of_not_lt hlen)
    have hr1 := Reach.step hr hstep
    have h1 := nth_set_self h { w with pc := WPC.release }
    obtain ⟨g2, d, hsteps, hnth, hsem, hcl, hec2, hsubs, hcls, hcap⟩ :=
      wk_done_from_release hr1 h1 rfl
    exact ⟨g2, d, steps_trans (steps_single hstep) hsteps, hnth, hsem, hcl, hec2,
      hsubs, hcls, hcap⟩

theorem wk_done_from_running {g : GSt} {i : Nat} {w : WkT} (hr : Reach g)
    (h : nth g.wks i = some w) (hpc : w.pc = WPC.running) : wkExit g i w := by
  cases ho : w.outcome with
  | ok =>
      have hstep := Step.wkRunOk g i w h hpc ho
      have hr1 := Reach.step hr hstep
      have h1 := nth_set_self h { w with pc := WPC.release }
      obtain ⟨g2, d, hsteps, hnth, hsem, hcl, hec2, hsubs, hcls, hcap⟩ :=
        wk_done_from_release hr1 h1 rfl
      exact ⟨g2, d, steps_trans (steps_single hstep) hsteps, hnth, hsem, hcl, hec2,
        hsubs, hcls, hcap⟩
  | panics =>
      have hstep := Step.wkRunPanic g i w h hpc ho
      have hr1 := Reach.step hr hstep
      have h1 := nth_set_self h { w with pc := WPC.release }
      obtain ⟨g2, d, hsteps, hnth, hsem, hcl, hec2, hsubs, hcls, hcap⟩ :=
        wk_done_from_release hr1 h1 rfl
      exact ⟨g2, d, steps_trans (steps_single hstep) hsteps, hnth, hsem, hcl, hec2,
        hsubs, hcls, hcap⟩
  | fail e =>
      have hstep := Step.wkRunFail g i w e h hpc ho
      have hr1 := Reach.step hr hstep
      have h1 := nth_set_self h { w with pc := WPC.sending e }
      obtain ⟨g2, d, hsteps, hnth, hsem, hcl, hec2, hsubs, hcls, hcap⟩ :=
        wk_done_from_sending hr1 h1 rfl
      exact ⟨g2, d, steps_trans (steps_single hstep) hsteps, hnth, hsem, hcl, hec2,
        hsubs, hcls, hcap⟩

theorem wk_done_from_checkCtx {g : GSt} {i : Nat} {w : WkT} (hr : Reach g)
    (h : nth g.wks i = some w) (hpc : w.pc = WPC.checkCtx) : wkExit g i w := by
  cases hctx : w.ctx with
  | true =>
      have hstep := Step.wkCtxSkip g i w h hpc hctx
      have hr1 := Reach.step hr hstep
      have h1 := nth_set_self h { w with pc := WPC.release }
      obtain ⟨g2, d, hsteps, hnth, hsem, hcl, hec2, hsubs, hcls, hcap⟩ :=
        wk_done_from_release hr1 h1 rfl
      exact ⟨g2, d, steps_trans (steps_single hstep) hsteps, hnth, hsem, hcl, hec2,
        hsubs, hcls, hcap⟩
  | false =>
      have hstep := Step.wkCtxGo g i w h hpc hctx
      have hr1 := Reach.step hr hstep
      have h1 := nth_set_self h { w with pc := WPC.running }
      obtain ⟨g2, d, hsteps, hnth, hsem, hcl, hec2, hsubs, hcls, hcap⟩ :=
        wk_done_from_running hr1 h1 rfl
      exact ⟨g2, d, steps_trans (steps_single hstep) hsteps, hnth, hsem, hcl, hec2,
        hsubs, hcls, hcap⟩

theorem wk_done_of_active {g : GSt} {i : Nat} {w : WkT} (hr : Reach g)
    (h : nth g.wks i = some w) (hpc : w.pc ≠ WPC.done) : wkExit g i w := by
  cases hw : w.pc with
  | checkCtx => exact wk_done_from_checkCtx hr h hw
  | running => exact wk_done_from_running hr h hw
  | sending e => exact wk_done_from_sending hr h hw
  | release => exact wk_done_from_release hr h hw
  | done => exact absurd hw hpc

/-- Trace T extended: a second CloseAndWait call arrived on the closed gate. -/
def exT13 : GSt :=
  ⟨1, 10, true, 1, [], true, false, [⟨some Outcome.ok, false, SPC.done SResult.ok⟩], [⟨Outcome.ok, false, false, WPC.done⟩], [CPC.doneWon, CPC.start]⟩

/-- Trace T extended: a Submit call with a nil job arrived on the closed gate. -/
def exT14 : GSt :=
  ⟨1, 10, true, 1, [], true, false,
    [⟨some Outcome.ok, false, SPC.done SResult.ok⟩, ⟨none, false, SPC.checkNil⟩], [⟨Outcome.ok, false, false, WPC.done⟩], [CPC.doneWon, CPC.start]⟩

/-- Trace T extended: a further Submit call with a proper job arrived on the closed gate. -/
def exT15 : GSt :=
  ⟨1, 10, true, 1, [], true, false,
    [⟨some Outcome.ok, false, SPC.done SResult.ok⟩, ⟨none, false, SPC.checkNil⟩, ⟨some Outcome.ok, false, SPC.checkNil⟩],
    [⟨Outcome.ok, false, false, WPC.done⟩], [CPC.doneWon, CPC.start]⟩

/-- Trace T extended: the late Submit call passed its nil check and is at the closed check of the closed gate. -/
def exT16 : GSt :=
  ⟨1, 10, true, 1, [], true, false,
    [⟨some Outcome.ok, false, SPC.done SResult.ok⟩, ⟨none, false, SPC.checkNil⟩, ⟨some Outcome.ok, false, SPC.checkClosed⟩],
    [⟨Outcome.ok, false, false, WPC.done⟩], [CPC.doneWon, CPC.start]⟩

/-- Trace R: a submitter holds the token at the re-check while a CloseAndWait call arrives. -/
def exR1 : GSt :=
  ⟨1, 10, false, 1, [], false, false, [⟨some Outcome.ok, false, SPC.recheck⟩], [], [CPC.start]⟩

/-- Trace R: the closer won the swap while the submitter is still at the re-check. -/
def exR2 : GSt :=
  ⟨1, 10, true, 1, [], false, false, [⟨some Outcome.ok, false, SPC.recheck⟩], [], [CPC.acq 0]⟩

/-- Trace B: the gate is full with one running job and a second Submit call with an already canceled context arrived. -/
def exB1 : GSt :=
  ⟨1, 10, false, 1, [], false, false,
    [⟨some Outcome.ok, false, SPC.done SResult.ok⟩, ⟨some Outcome.ok, true, SPC.checkNil⟩],
    [⟨Outcome.ok, false, false, WPC.checkCtx⟩], []⟩

/-- Trace B: the second submitter passed the nil check. -/
def exB2 : GSt :=
  ⟨1, 10, false, 1, [], false, false,
    [⟨some Outcome.ok, false, SPC.done SResult.ok⟩, ⟨some Outcome.ok, true, SPC.checkClosed⟩],
    [⟨Outcome.ok, false, false, WPC.checkCtx⟩], []⟩

/-- Trace B: the second submitter is blocked in the select of the full gate. -/
def exB3 : GSt :=
  ⟨1, 10, false, 1, [], false, false,
    [⟨some Outcome.ok, false, SPC.done SResult.ok⟩, ⟨some Outcome.ok, true, SPC.selecting⟩],
    [⟨Outcome.ok, false, false, WPC.checkCtx⟩], []⟩

/-- Trace F: a Submit call with a failing job arrived on a fresh capacity 1 gate. -/
def exF1 : GSt :=
  ⟨1, 10, false, 0, [], false, false, [⟨some (Outcome.fail 7), false, SPC.checkNil⟩], [], []⟩

/-- Trace F: the failing-job submitter passed the nil check. -/
def exF2 : GSt :=
  ⟨1, 10, false, 0, [], false, false, [⟨some (Outcome.fail 7), false, SPC.checkClosed⟩], [], []⟩

/-- Trace F: the failing-job submitter is at the select. -/
def exF3 : GSt :=
  ⟨1, 10, false, 0, [], false, false, [⟨some (Outcome.fail 7), false, SPC.selecting⟩], [], []⟩

/-- Trace F: the failing-job submitter acquired the token. -/
def exF4 : GSt :=
  ⟨1, 10, false, 1, [], false, false, [⟨some (Outcome.fail 7), false, SPC.recheck⟩], [], []⟩

/-- Trace F: the failing-job worker was spawned. -/
def exF5 : GSt :=
  ⟨1, 10, false, 1, [], false, false, [⟨some (Outcome.fail 7), false, SPC.done SResult.ok⟩],
    [⟨Outcome.fail 7, false, false, WPC.checkCtx⟩], []⟩

/-- Trace F: the failing-job worker passed the context check. -/
def exF6 : GSt :=
  ⟨1, 10, false, 1, [], false, false, [⟨some (Outcome.fail 7), false, SPC.done SResult.ok⟩],
    [⟨Outcome.fail 7, false, false, WPC.running⟩], []⟩

/-- Trace F: the failing job returned error 7 and the worker is at the non-blocking send. -/
def exF7 : GSt :=
  ⟨1, 10, false, 1, [], false, false, [⟨some (Outcome.fail 7), false, SPC.done SResult.ok⟩],
    [⟨Outcome.fail 7, false, false, WPC.sending 7⟩], []⟩

/-- Trace F: error 7 was enqueued to the error channel. -/
def exF8 : GSt :=
  ⟨1, 10, false, 1, [7], false, false, [⟨some (Outcome.fail 7), false, SPC.done SResult.ok⟩],
    [⟨Outcome.fail 7, false, true, WPC.release⟩], []⟩

/-- Trace F: the failing-job worker released its slot. -/
def exF9 : GSt :=
  ⟨1, 10, false, 0, [7], false, false, [⟨some (Outcome.fail 7), false, SPC.done SResult.ok⟩],
    [⟨Outcome.fail 7, false, true, WPC.done⟩], []⟩

/-- Trace F: a CloseAndWait call arrived. -/
def exF10 : GSt :=
  ⟨1, 10, false, 0, [7], false, false, [⟨some (Outcome.fail 7), false, SPC.done SResult.ok⟩],
    [⟨Outcome.fail 7, false, true, WPC.done⟩], [CPC.start]⟩

/-- Trace F: the closer won the swap. -/
def exF11 : GSt :=
  ⟨1, 10, true, 0, [7], false, false, [⟨some (Outcome.fail 7), false, SPC.done SResult.ok⟩],
    [⟨Outcome.fail 7, false, true, WPC.done⟩], [CPC.acq 0]⟩

/-- Trace F: the closer acquired the single capacity token. -/
def exF12 : GSt :=
  ⟨1, 10, true, 1, [7], false, false, [⟨some (Outcome.fail 7), false, SPC.done SResult.ok⟩],
    [⟨Outcome.fail 7, false, true, WPC.done⟩], [CPC.acq 1]⟩

/-- Trace F: the closer closed the error channel, error 7 still enqueued. -/
def exF13 : GSt :=
  ⟨1, 10, true, 1, [7], true, false, [⟨some (Outcome.fail 7), false, SPC.done SResult.ok⟩],
    [⟨Outcome.fail 7, false, true, WPC.done⟩], [CPC.doneWon]⟩

theorem reach_exT13 : Reach exT13 :=
  Reach.step reach_exT12 (Step.newCloser exT12)

theorem reach_exT14 : Reach exT14 :=
  Reach.step reach_exT13 (Step.newSubmit exT13 none false)

theorem reach_exT15 : Reach exT15 :=
  Reach.step reach_exT14 (Step.newSubmit exT14 (some Outcome.ok) false)

theorem reach_exT16 : Reach exT16 :=
  Reach.step reach_exT15 (Step.subNilOk exT15 2 ⟨some Outcome.ok, false, SPC.checkNil⟩ Outcome.ok rfl rfl rfl)

theorem reach_exR1 : Reach exR1 :=
  Reach.step reach_exT4 (Step.newCloser exT4)

theorem reach_exR2 : Reach exR2 :=
  Reach.step reach_exR1 (Step.clWin exR1 0 rfl rfl)

theorem reach_exB1 : Reach exB1 :=
  Reach.step reach_exT5 (Step.newSubmit exT5 (some Outcome.ok) true)

theorem reach_exB2 : Reach exB2 :=
  Reach.step reach_exB1 (Step.subNilOk exB1 1 ⟨some Outcome.ok, true, SPC.checkNil⟩ Outcome.ok rfl rfl rfl)

theorem reach_exB3 : Reach exB3 :=
  Reach.step reach_exB2 (Step.subClosedOk exB2 1 ⟨some Outcome.ok, true, SPC.checkClosed⟩ rfl rfl rfl)

theorem reach_exF1 : Reach exF1 :=
  Reach.step (Reach.init 1) (Step.newSubmit (NewGate 1) (some (Outcome.fail 7)) false)

theorem reach_exF2 : Reach exF2 :=
  Reach.step reach_exF1 (Step.subNilOk exF1 0 ⟨some (Outcome.fail 7), false, SPC.checkNil⟩ (Outcome.fail 7) rfl rfl rfl)

theorem reach_exF3 : Reach exF3 :=
  Reach.step reach_exF2 (Step.subClosedOk exF2 0 ⟨some (Outcome.fail 7), false, SPC.checkClosed⟩ rfl rfl rfl)

theorem reach_exF4 : Reach exF4 :=
  Reach.step reach_exF3 (Step.subAcquire exF3 0 ⟨some (Outcome.fail 7), false, SPC.selecting⟩ rfl rfl (by decide))

theorem reach_exF5 : Reach exF5 :=
  Reach.step reach_exF4 (Step.subSpawn exF4 0 ⟨some (Outcome.fail 7), false, SPC.recheck⟩ (Outcome.fail 7) rfl rfl rfl rfl)

theorem reach_exF6 : Reach exF6 :=
  Reach.step reach_exF5 (Step.wkCtxGo exF5 0 ⟨Outcome.fail 7, false, false, WPC.checkCtx⟩ rfl rfl rfl)

theorem reach_exF7 : Reach exF7 :=
  Reach.step reach_exF6 (Step.wkRunFail exF6 0 ⟨Outcome.fail 7, false, false, WPC.running⟩ 7 rfl rfl rfl)

theorem reach_exF8 : Reach exF8 :=
  Reach.step reach_exF7 (Step.wkSendOk exF7 0 ⟨Outcome.fail 7, false, false, WPC.sending 7⟩ 7 rfl rfl rfl (by decide))

theorem reach_exF9 : Reach exF9 :=
  Reach.step reach_exF8 (Step.wkRelease exF8 0 ⟨Outcome.fail 7, false, true, WPC.release⟩ rfl rfl (by decide))

theorem reach_exF10 : Reach exF10 :=
  Reach.step reach_exF9 (Step.newCloser exF9)

theorem reach_exF11 : Reach exF11 :=
  Reach.step reach_exF10 (Step.clWin exF10 0 rfl rfl)

theorem reach_exF12 : Reach exF12 :=
  Reach.step reach_exF11 (Step.clAcquire exF11 0 0 rfl (by decide) (by decide))

theorem reach_exF13 : Reach exF13 :=
  Reach.step reach_exF12 (Step.clClose exF12 0 rfl rfl)

/-- C1: for every capacity and every interleaving of Submit, job completion
and CloseAndWait steps, in every reachable state the number of concurrently
running jobs and the number of occupied semaphore slots never exceed the
capacity of the Gate, which is at least 1; for a requested capacity of at
least 1 the effective capacity is exactly the requested one. -/
theorem gate_concurrency_bounded :
    (∀ g : GSt, Reach g → runningJobs g ≤ Capacity g ∧ InUse g ≤ Capacity g ∧
      1 ≤ Capacity g) ∧
    (∀ n : Int, 1 ≤ n → (Capacity (NewGate n) : Int) = n) := by
  constructor
  · intro g hr
    have hi := inv_reach hr
    refine ⟨?_, hi.sem_le, hi.cap_pos⟩
    have heq := hi.sem_eq
    have hle := hi.sem_le
    unfold runningJobs Capacity
    omega
  · intro n hn
    simp only [Capacity, NewGate]
    rw [if_neg (by omega)]
    omega

/-- Witness for gate_concurrency_bounded at the reachable state exT8, which
has one running job on a capacity 1 gate. -/
theorem gate_concurrency_bounded_witness :
    runningJobs exT8 ≤ Capacity exT8 ∧ InUse exT8 ≤ Capacity exT8 ∧ 1 ≤ Capacity exT8 :=
  gate_concurrency_bounded.1 exT8 reach_exT8

/-- C2 counterexample: in the reachable state exT8 the closed flag has been
set by CloseAndWait, yet the already admitted worker invokes Job.Run in the
next step, so a job begins execution after shutdown has been initiated. -/
theorem run_after_close_counterexample :
    Reach exT8 ∧ exT8.closed = true ∧
    nth exT8.wks 0 = some ⟨Outcome.ok, false, false, WPC.running⟩ ∧
    Step exT8 exT9 ∧ exT9.closed = true ∧
    nth exT9.wks 0 = some ⟨Outcome.ok, false, false, WPC.release⟩ :=
  ⟨reach_exT8, rfl, rfl, step_exT8_exT9, rfl, rfl⟩

/-- C2 amended: a worker is spawned only while the closed flag is still
unset, so no job is admitted after shutdown has been initiated; a submitter
that sees the flag set at the re-check releases its freshly acquired token
and reports the shutdown error; a worker spawned before the flag flipped may
still invoke Job.Run afterwards, but once CloseAndWait has returned and the
error stream is closed every admitted worker has finished, so no job begins
or continues execution after CloseAndWait returns. -/
theorem no_admission_after_close :
    (∀ g g2 : GSt, Step g g2 → g.wks.length < g2.wks.length → g.closed = false) ∧
    (∀ g j s, Reach g → nth g.subs j = some s → s.pc = SPC.recheck → g.closed = true →
      Step g { g with sem := g.sem - 1,
                      subs := g.subs.set j { s with pc := SPC.done SResult.errShutdown } }) ∧
    (∀ g : GSt, Reach g → g.errsClosed = true → ∀ w ∈ g.wks, w.pc = WPC.done) := by
  refine ⟨?_, ?_, ?_⟩
  · intro g g2 hs hlt
    cases hs <;> first
      | assumption
      | (dsimp only at hlt; omega)
      | (dsimp only at hlt; rw [List.length_set] at hlt; omega)
  · intro g j s hr hj hpc hc
    have hi := inv_reach hr
    have hle := sumBy_le_of_mem subTok (nth_mem hj)
    have heq := hi.sem_eq
    rw [subTok_val, if_pos hpc] at hle
    exact Step.subRecheckRej g j s hj hpc hc (by omega)
  · intro g hr hec
    exact errsClosed_workers_done (inv_reach hr) hec

/-- Witness for no_admission_after_close: the spawn step from exT4 happened
with the closed flag unset, the re-check rejection step exists at exR2, and
in exT12 the stream is closed with every worker finished. -/
theorem no_admission_after_close_witness :
    exT4.closed = false ∧
    Step exR2 ⟨1, 10, true, 0, [], false, false,
      [⟨some Outcome.ok, false, SPC.done SResult.errShutdown⟩], [], [CPC.acq 0]⟩ ∧
    (⟨Outcome.ok, false, false, WPC.done⟩ : WkT).pc = WPC.done :=
  ⟨no_admission_after_close.1 exT4 exT5
      (Step.subSpawn exT4 0 ⟨some Outcome.ok, false, SPC.recheck⟩ Outcome.ok rfl rfl rfl rfl)
      (by decide),
   no_admission_after_close.2.1 exR2 0 ⟨some Outcome.ok, false, SPC.recheck⟩
      reach_exR2 rfl rfl rfl,
   no_admission_after_close.2.2 exT12 reach_exT12 rfl
      ⟨Outcome.ok, false, false, WPC.done⟩ (by decide)⟩

/-- C3: every admitted worker releases its slot on exit on every path, normal
return, error, panic or skipped execution: from any reachable state some
continuation finishes the worker with a net semaphore effect of exactly one
release and with the closed flags, submitters and closers untouched; and in
the concrete run exP20 a panicking job completed without leaking its slot, a
further job was then admitted up to capacity and completed, and CloseAndWait
completed. -/
theorem worker_always_releases :
    (∀ g i w, Reach g → nth g.wks i = some w → w.pc ≠ WPC.done → wkExit g i w) ∧
    (Reach exP20 ∧ exP20.errsClosed = true ∧
      nth exP20.wks 0 = some ⟨Outcome.panics, false, false, WPC.done⟩ ∧
      nth exP20.wks 1 = some ⟨Outcome.ok, false, false, WPC.done⟩ ∧
      nth exP20.cls 0 = some CPC.doneWon) :=
  ⟨fun _ _ _ hr h hpc => wk_done_of_active hr h hpc,
   reach_exP20, rfl, rfl, rfl, rfl⟩

/-- Witness for worker_always_releases at exT9, whose single worker is at the
deferred release. -/
theorem worker_always_releases_witness :
    nth exT9.wks 0 = some ⟨Outcome.ok, false, false, WPC.release⟩ ∧
    wkExit exT9 0 ⟨Outcome.ok, false, false, WPC.release⟩ :=
  ⟨rfl, worker_always_releases.1 exT9 0 ⟨Outcome.ok, false, false, WPC.release⟩
    reach_exT9 rfl (by decide)⟩

/-- C4: in any reachable state where some CloseAndWait call has returned, the
gate is closed, the error stream is closed and stays closed, no close panic
ever occurred (the stream was closed exactly once), every worker had finished
before the close, and a submitter at the closed check can step to the
shutdown rejection and to nothing else. -/
theorem close_then_submit_shutdown :
    ∀ g i, Reach g → nth g.cls i = some CPC.doneWon →
      g.closed = true ∧ g.errsClosed = true ∧ g.crashed = false ∧
      (∀ w ∈ g.wks, w.pc = WPC.done) ∧
      (∀ g2, Step g g2 → g2.errsClosed = true ∧ nth g2.cls i = some CPC.doneWon) ∧
      (∀ j s, nth g.subs j = some s → s.pc = SPC.checkClosed →
        Step g { g with subs := g.subs.set j { s with pc := SPC.done SResult.errShutdown } } ∧
        (∀ g2, Step g g2 → ∀ s2, nth g2.subs j = some s2 →
          s2.pc = SPC.checkClosed ∨ s2.pc = SPC.done SResult.errShutdown)) := by
  intro g i hr hw
  obtain ⟨hcl, hec, hsem, hwks, hstok, hrun⟩ := doneWon_state hr hw
  have hi := inv_reach hr
  refine ⟨hcl, hec, hi.no_crash, hwks, ?_, ?_⟩
  · intro g2 hs
    exact ⟨ec_mono hs hec, doneWon_persists hw hs⟩
  · intro j s hj hpc
    refine ⟨Step.subClosedRej g j s hj hpc hcl, ?_⟩
    intro g2 hs s2 hs2
    rcases sub_next hj hs s2 hs2 with h1 | h1 | ⟨hpcn, -, -⟩ | ⟨hpcn, -, -⟩ |
      ⟨-, -, h2⟩ | ⟨-, hcf, -⟩ | ⟨hpcn, -, -⟩ | ⟨hpcn, -, -⟩ | ⟨hpcn, -, -⟩ | ⟨hpcn, -, -⟩
    · subst h1; exact Or.inl hpc
    · subst h1; exact Or.inl hpc
    · rw [hpc] at hpcn; simp at hpcn
    · rw [hpc] at hpcn; simp at hpcn
    · subst h2; exact Or.inr rfl
    · rw [hcl] at hcf; simp at hcf
    · rw [hpc] at hpcn; simp at hpcn
    · rw [hpc] at hpcn; simp at hpcn
    · rw [hpc] at hpcn; simp at hpcn
    · rw [hpc] at hpcn; simp at hpcn

/-- Witness for close_then_submit_shutdown at exT16, whose closer 0 has
returned while submitter 2 is at the closed check. -/
theorem close_then_submit_shutdown_witness :
    exT16.closed = true ∧ exT16.errsClosed = true ∧ exT16.crashed = false ∧
    Step exT16 ⟨1, 10, true, 1, [], true, false,
      [⟨some Outcome.ok, false, SPC.done SResult.ok⟩, ⟨none, false, SPC.checkNil⟩,
        ⟨some Outcome.ok, false, SPC.done SResult.errShutdown⟩],
      [⟨Outcome.ok, false, false, WPC.done⟩], [CPC.doneWon, CPC.start]⟩ :=
  have h := close_then_submit_shutdown exT16 0 reach_exT16 rfl
  ⟨h.1, h.2.1, h.2.2.1,
    (h.2.2.2.2.2 2 ⟨some Outcome.ok, false, SPC.checkClosed⟩ rfl rfl).1⟩

/-- C5: CloseAndWait is idempotent: in any reachable state with the closed
flag already set, an arriving CloseAndWait call finishes in one step as the
loser of the atomic swap while changing nothing but its own program counter;
any system step either leaves that call untouched or is exactly this
no-effect step; at most one CloseAndWait call ever wins the swap, and no
double-close panic ever occurs. -/
theorem closeAndWait_idempotent :
    ∀ g i, Reach g → g.closed = true → nth g.cls i = some CPC.start →
      Step g { g with cls := g.cls.set i CPC.doneLost } ∧
      (∀ g2 c2, Step g g2 → nth g2.cls i = some c2 →
        c2 = CPC.start ∨ (c2 = CPC.doneLost ∧
          g2 = { g with cls := g.cls.set i CPC.doneLost })) ∧
      sumBy winTok g.cls ≤ 1 ∧ g.crashed = false := by
  intro g i hr hc hcls
  have hi := inv_reach hr
  refine ⟨Step.clLose g i hcls hc, ?_, hi.win_le, hi.no_crash⟩
  intro g2 c2 hs hc2
  rcases cls_next hcls hs c2 hc2 with h1 | ⟨-, -, hcd, hg2⟩ | ⟨-, hcf, -⟩ |
    ⟨k, hk, -, -, -⟩ | ⟨hk, -⟩
  · exact Or.inl h1
  · exact Or.inr ⟨hcd, hg2⟩
  · rw [hc] at hcf; simp at hcf
  · simp at hk
  · simp at hk

/-- Witness for closeAndWait_idempotent at exT13, where a second CloseAndWait
call arrived after the first one returned. -/
theorem closeAndWait_idempotent_witness :
    Step exT13 ⟨1, 10, true, 1, [], true, false,
      [⟨some Outcome.ok, false, SPC.done SResult.ok⟩],
      [⟨Outcome.ok, false, false, WPC.done⟩], [CPC.doneWon, CPC.doneLost]⟩ ∧
    sumBy winTok exT13.cls ≤ 1 :=
  have h := closeAndWait_idempotent exT13 1 reach_exT13 rfl rfl
  ⟨h.1, h.2.2.1⟩

/-- C6: a runtime panic raised inside Job.Run is contained at the worker
boundary: a panicking worker is never at the error send and its error is
never delivered on the error stream, the process never crashes, and from the
run step the panicking worker proceeds directly to the release of its slot
with the error channel untouched. -/
theorem panic_contained :
    ∀ g i w, Reach g → nth g.wks i = some w → w.outcome = Outcome.panics →
      w.delivered = false ∧ (∀ e, w.pc ≠ WPC.sending e) ∧ g.crashed = false ∧
      (w.pc = WPC.running →
        Step g { g with wks := g.wks.set i { w with pc := WPC.release } }) := by
  intro g i w hr h ho
  have hi := inv_reach hr
  refine ⟨?_, ?_, hi.no_crash, ?_⟩
  · cases hd : w.delivered
    · rfl
    · obtain ⟨e, he, -⟩ := hi.deliv w (nth_mem h) hd
      rw [ho] at he
      simp at he
  · intro e hpc
    have he := hi.sendo w (nth_mem h) e hpc
    rw [ho] at he
    simp at he
  · intro hpc
    exact Step.wkRunPanic g i w h hpc ho

/-- Witness for panic_contained at exP6, whose worker is about to run a
panicking job. -/
theorem panic_contained_witness :
    (⟨Outcome.panics, false, false, WPC.running⟩ : WkT).delivered = false ∧
    Step exP6 exP7 :=
  have h := panic_contained exP6 0 ⟨Outcome.panics, false, false, WPC.running⟩
    reach_exP6 rfl rfl
  ⟨h.1, h.2.2.2 rfl⟩

/-- C7: a submitter in the select of Submit can acquire a token exactly when
the semaphore has room and can exit with the cancellation error once its
context has fired, without consuming a token; when the gate is full no step
increases InUse, and the blocked submitter either stays in the select or
exits with the cancellation error, never acquiring a slot. -/
theorem submit_blocks_or_cancels :
    ∀ g j s, nth g.subs j = some s → s.pc = SPC.selecting →
      (s.ctx = true →
        Step g { g with subs := g.subs.set j { s with pc := SPC.done SResult.errCtx } }) ∧
      (g.sem < g.cap →
        Step g { g with sem := g.sem + 1,
                        subs := g.subs.set j { s with pc := SPC.recheck } }) ∧
      (InUse g = Capacity g → ∀ g2, Step g g2 → InUse g2 ≤ InUse g ∧
        (∀ s2, nth g2.subs j = some s2 →
          s2.pc = SPC.selecting ∨ s2.pc = SPC.done SResult.errCtx)) := by
  intro g j s hj hpc
  refine ⟨fun hctx => Step.subCtxExit g j s hj hpc hctx,
          fun hroom => Step.subAcquire g j s hj hpc hroom, ?_⟩
  intro hfull g2 hs
  have hfull2 : g.cap ≤ g.sem := by
    unfold InUse Capacity at hfull
    omega
  refine ⟨sem_no_increase_full hs hfull2, ?_⟩
  intro s2 hs2
  rcases sub_next hj hs s2 hs2 with h1 | h1 | ⟨hpcn, -, -⟩ | ⟨hpcn, -, -⟩ |
    ⟨hpcn, -, -⟩ | ⟨hpcn, -, -⟩ | ⟨-, hroom, -⟩ | ⟨-, -, h2⟩ | ⟨hpcn, -, -⟩ | ⟨hpcn, -, -⟩
  · subst h1; exact Or.inl hpc
  · subst h1; exact Or.inl hpc
  · rw [hpc] at hpcn; simp at hpcn
  · rw [hpc] at hpcn; simp at hpcn
  · rw [hpc] at hpcn; simp at hpcn
  · rw [hpc] at hpcn; simp at hpcn
  · omega
  · subst h2; exact Or.inr rfl
  · rw [hpc] at hpcn; simp at hpcn
  · rw [hpc] at hpcn; simp at hpcn

/-- Witness for submit_blocks_or_cancels at exB3: the gate is full and the
second submitter, whose context already fired, exits with the cancellation
error without consuming a slot. -/
theorem submit_blocks_or_cancels_witness :
    InUse exB3 = Capacity exB3 ∧
    Step exB3 ⟨1, 10, false, 1, [], false, false,
      [⟨some Outcome.ok, false, SPC.done SResult.ok⟩,
        ⟨some Outcome.ok, true, SPC.done SResult.errCtx⟩],
      [⟨Outcome.ok, false, false, WPC.checkCtx⟩], []⟩ :=
  ⟨rfl, (submit_blocks_or_cancels exB3 1 ⟨some Outcome.ok, true, SPC.selecting⟩
    rfl rfl).1 rfl⟩

/-- C8: a worker at the non-blocking error send holds exactly the non-nil
error its job returned and the stream is still open at that moment; the send
enqueues the error and marks it delivered when the bounded buffer has room
and silently drops it when the buffer is full, in either case proceeding to
the slot release; every delivered error stays in the buffer, and the stream
is closed only once every worker has finished, so a delivered error is
observable on the stream when CloseAndWait closes it. -/
theorem error_delivered_before_close :
    ∀ g, Reach g →
      (∀ i w e, nth g.wks i = some w → w.pc = WPC.sending e →
        w.outcome = Outcome.fail e ∧ g.errsClosed = false ∧
        (g.errs.length < g.errCap →
          Step g { g with errs := g.errs ++ [e],
                          wks := g.wks.set i { w with delivered := true,
                                                      pc := WPC.release } }) ∧
        (g.errCap ≤ g.errs.length →
          Step g { g with wks := g.wks.set i { w with pc := WPC.release } })) ∧
      (∀ w ∈ g.wks, w.delivered = true → ∃ e, w.outcome = Outcome.fail e ∧ e ∈ g.errs) ∧
      (g.errsClosed = true → ∀ w ∈ g.wks, w.pc = WPC.done) := by
  intro g hr
  have hi := inv_reach hr
  refine ⟨?_, hi.deliv, fun hec => errsClosed_workers_done hi hec⟩
  intro i w e h hpc
  have hec : g.errsClosed = false := wk_active_not_ec hr h (by simp [hpc])
  exact ⟨hi.sendo w (nth_mem h) e hpc, hec,
    fun hlen => Step.wkSendOk g i w e h hpc hec hlen,
    fun hlen => Step.wkSendDrop g i w e h hpc hec hlen⟩

/-- Witness for error_delivered_before_close: at exF7 the failing job enqueues
error 7, and at exF13 the stream is closed with error 7 still in the buffer
and every worker finished. -/
theorem error_delivered_before_close_witness :
    Step exF7 exF8 ∧ 7 ∈ exF13.errs ∧ exF13.errsClosed = true ∧
    (⟨Outcome.fail 7, false, true, WPC.done⟩ : WkT).pc = WPC.done :=
  ⟨((error_delivered_before_close exF7 reach_exF7).1 0
      ⟨Outcome.fail 7, false, false, WPC.sending 7⟩ 7 rfl rfl).2.2.1 (by decide),
   by decide, rfl,
   (error_delivered_before_close exF13 reach_exF13).2.2 rfl
      ⟨Outcome.fail 7, false, true, WPC.done⟩ (by decide)⟩

/-- C9: once some CloseAndWait call has returned, InUse reports the full
capacity and Available reports zero even though no job is running, and this
persists: the closer holds all capacity tokens and never returns them to the
semaphore. -/
theorem closed_gate_reports_full :
    (∀ g i, Reach g → nth g.cls i = some CPC.doneWon →
      InUse g = Capacity g ∧ Available g = 0 ∧ runningJobs g = 0) ∧
    (∀ g g2 i, nth g.cls i = some CPC.doneWon → Step g g2 →
      nth g2.cls i = some CPC.doneWon) := by
  constructor
  · intro g i hr hw
    obtain ⟨-, -, hsem, -, -, hrun⟩ := doneWon_state hr hw
    refine ⟨hsem, ?_, hrun⟩
    unfold Available InUse Capacity
    omega
  · intro g g2 i hw hs
    exact doneWon_persists hw hs

/-- Witness for closed_gate_reports_full at exT12. -/
theorem closed_gate_reports_full_witness :
    InUse exT12 = Capacity exT12 ∧ Available exT12 = 0 ∧ runningJobs exT12 = 0 :=
  closed_gate_reports_full.1 exT12 0 reach_exT12 rfl

/-- C10: a Submit call with a nil job is rejected with the nil-job error in a
single step from the nil check, in every state of every Gate, open or closed,
without touching the semaphore; and from the nil check the only reachable
results are staying put or the nil-job rejection, never the shutdown error,
because the nil check precedes the closed check. -/
theorem nil_job_rejected :
    ∀ g j s, nth g.subs j = some s → s.pc = SPC.checkNil → s.jb = none →
      Step g { g with subs := g.subs.set j { s with pc := SPC.done SResult.errNilJob } } ∧
      (∀ g2, Step g g2 → ∀ s2, nth g2.subs j = some s2 →
        (s2.pc = SPC.checkNil ∧ s2.jb = none) ∨ s2.pc = SPC.done SResult.errNilJob) := by
  intro g j s hj hpc hjb
  refine ⟨Step.subNilRej g j s hj hpc hjb, ?_⟩
  intro g2 hs s2 hs2
  rcases sub_next hj hs s2 hs2 with h1 | h1 | ⟨-, -, h2⟩ | ⟨-, ⟨o, hjo⟩, -⟩ |
    ⟨hpcn, -, -⟩ | ⟨hpcn, -, -⟩ | ⟨hpcn, -, -⟩ | ⟨hpcn, -, -⟩ | ⟨hpcn, -, -⟩ | ⟨hpcn, -, -⟩
  · subst h1; exact Or.inl ⟨hpc, hjb⟩
  · subst h1; exact Or.inl ⟨hpc, hjb⟩
  · subst h2; exact Or.inr rfl
  · rw [hjb] at hjo; simp at hjo
  · rw [hpc] at hpcn; simp at hpcn
  · rw [hpc] at hpcn; simp at hpcn
  · rw [hpc] at hpcn; simp at hpcn
  · rw [hpc] at hpcn; simp at hpcn
  · rw [hpc] at hpcn; simp at hpcn
  · rw [hpc] at hpcn; simp at hpcn

/-- Witness for nil_job_rejected at exT14: the gate is closed, yet the nil
submission is rejected with the nil-job error rather than the shutdown
error. -/
theorem nil_job_rejected_witness :
    exT14.closed = true ∧
    Step exT14 ⟨1, 10, true, 1, [], true, false,
      [⟨some Outcome.ok, false, SPC.done SResult.ok⟩,
        ⟨none, false, SPC.done SResult.errNilJob⟩],
      [⟨Outcome.ok, false, false, WPC.done⟩], [CPC.doneWon, CPC.start]⟩ :=
  ⟨rfl, (nil_job_rejected exT14 1 ⟨none, false, SPC.checkNil⟩ rfl rfl rfl).1⟩

end Grlimit
